import Mathlib

/-
Verification of the Student Management & Attendance System
(a JavaScript roster/attendance tracker synchronized via a relay server).

The embedding below shallowly models, in Lean:
  * the JavaScript values used as student identifiers (strings or integer
    numbers) with JavaScript's strict (`===`) and abstract (`==`) equality,
    the latter restricted to digit-string/number coercion which is the
    fragment this program exercises;
  * the client-side `DataManager` class of `data-manager.js` (students,
    student records, attendance logs, tombstoned students) together with
    the validation rules of `config.js`; note that in `data-manager.js`
    the class body defines `addStudent` and `importData` twice, and in
    JavaScript the later definition wins, so the enhanced `addStudent`
    (line 768) and the later `importData` (line 682) are the ones modelled;
  * the Node server's socket handlers from `server.js` (`qr-scan`,
    `mark-attendance`) and the `POST /api/import` endpoint.

Clock reads (`new Date()`, `Date.now()`) and fresh random ids are passed
as explicit parameters (`today`, `now`, `freshId`).  Stateful methods are
modelled as functions from the store state to a pair of the new state and
the outcome; a thrown JavaScript exception is an `Except.error` result, and
mutations performed before a throw are visible in the returned state, just
as they are in the JavaScript objects.
-/

namespace StudentMgmt

/-- A JavaScript value used as an identifier: either a string or an
integer number.  Ids in this program are strings such as "2024001" or
numbers such as 2024001. -/
inductive JsVal where
  | str (s : String)
  | num (n : Int)
  deriving DecidableEq, Repr

/-- JavaScript numeric coercion of a string, restricted to unsigned digit
strings (the identifier shapes this program uses): a string of digits
coerces to its value, the empty string coerces to 0, and any other string
coerces to NaN, modelled as `none` (so `==` against a number is false). -/
def strToNum (s : String) : Option Int :=
  if s.data.all Char.isDigit then
    some (s.data.foldl (fun n c => 10 * n + (Int.ofNat (c.toNat - '0'.toNat))) 0)
  else none

/-- JavaScript abstract equality `==` on identifier values. -/
def looseEq : JsVal → JsVal → Bool
  | .str a, .str b => a == b
  | .num a, .num b => a == b
  | .str a, .num b => (strToNum a).any (fun n => n == b)
  | .num a, .str b => (strToNum b).any (fun n => n == a)

/-- JavaScript strict equality `===` on identifier values. -/
def strictEq : JsVal → JsVal → Bool
  | .str a, .str b => a == b
  | .num a, .num b => a == b
  | _, _ => false

/-- JavaScript truthiness of an identifier value: `""` and `0` are falsy. -/
def jsTruthy : JsVal → Bool
  | .str s => s != ""
  | .num n => n != 0

/-- JavaScript string interpolation of an identifier value. -/
def jsToString : JsVal → String
  | .str s => s
  | .num n => toString n

/-- JavaScript `x || d` for an optional string (absent or empty falls back). -/
def jsOrStr (x : Option String) (d : String) : String :=
  match x with
  | some s => if s = "" then d else s
  | none => d

/-- JavaScript `x || d` for an optional integer (absent, `NaN` or `0`
falls back). -/
def jsOrInt (x : Option Int) (d : Int) : Int :=
  match x with
  | some n => if n = 0 then d else n
  | none => d

/-- One session slot of a student record: attendance, homework, quiz, date.
Absent (`undefined`) and `null` field values are both modelled as `none`. -/
structure Session where
  attendance : Option String
  homework : Option String
  quiz : Option Int
  date : Option String
  deriving DecidableEq, Repr

/-- The empty / freshly initialized session slot (all fields `null`). -/
def emptySession : Session := ⟨none, none, none, none⟩

/-- A partial session update as passed to `updateStudentSession`:
`none` means the corresponding key is absent from the object, so a spread
merge keeps the previous value. -/
structure SessionData where
  attendance : Option String
  homework : Option String
  quiz : Option Int
  date : Option String
  deriving DecidableEq, Repr

/-- `{...old, ...sessionData, date: sessionData.date || today}` from
`DataManager.updateStudentSession` (data-manager.js line 477): fields
present in the update override, absent fields keep the old value, and the
date is always rewritten to the supplied date or today. -/
def mergeSession (old : Option Session) (sd : SessionData) (today : String) : Session :=
  let o := old.getD emptySession
  { attendance := match sd.attendance with | some a => some a | none => o.attendance,
    homework := match sd.homework with | some h => some h | none => o.homework,
    quiz := match sd.quiz with | some q => some q | none => o.quiz,
    date := some (jsOrStr sd.date today) }

/-- Lookup of `sessions[n]` in a record's sessions object, modelled as an
association list. -/
def getSession (ss : List (Nat × Session)) (n : Nat) : Option Session :=
  (ss.find? (fun p => p.1 == n)).map (fun p => p.2)

/-- Assignment `sessions[n] = v` on the sessions object: replaces the
value when the key is present, otherwise adds the key. -/
def setSession (ss : List (Nat × Session)) (n : Nat) (v : Session) : List (Nat × Session) :=
  if ss.any (fun p => p.1 == n) then
    ss.map (fun p => if p.1 == n then (n, v) else p)
  else ss ++ [(n, v)]

/-- `CONFIG.sessions.maxSessions` from config.js. -/
def maxSessions : Nat := 8

/-- The `for (let i = 1; i <= maxSessions; i++)` initialization of all
session slots to the empty session. -/
def initSessions : List (Nat × Session) :=
  (List.range maxSessions).map (fun i => (i + 1, emptySession))

/-- Replace the first element satisfying `p` (JavaScript mutation through
the alias returned by `Array.prototype.find`, which yields the first match). -/
def updateFirst (p : α → Bool) (f : α → α) : List α → List α
  | [] => []
  | x :: xs => if p x then f x :: xs else x :: updateFirst p f xs

/-- `findIndex` followed by `splice(i, 1)`: split the list around the first
element satisfying `p`, returning `(before, match, after)`. -/
def extractFirst (p : α → Bool) : List α → Option (List α × α × List α)
  | [] => none
  | x :: xs =>
    if p x then some ([], x, xs)
    else (extractFirst p xs).map (fun t => (x :: t.1, t.2.1, t.2.2))

namespace DM

/-- A student object as built by `DataManager.addStudent`
(data-manager.js lines 781-793). -/
structure Student where
  id : JsVal
  fullName : String
  phoneNumber : String
  email : String
  contactMethod : String
  parentPhone : String
  gradeLevel : String
  center : String
  school : String
  createdAt : String
  updatedAt : String
  deriving DecidableEq, Repr

/-- The raw input object handed to `DataManager.addStudent`; optional
fields model keys that may be absent (defaulted with `||` on construction). -/
structure StudentInput where
  id : JsVal
  fullName : String
  phoneNumber : String
  email : Option String
  contactMethod : Option String
  parentPhone : Option String
  gradeLevel : Option String
  center : Option String
  school : Option String
  deriving DecidableEq, Repr

/-- A student record as built by `DataManager.createStudentRecord`
(data-manager.js lines 429-446). -/
structure StudentRecord where
  id : JsVal
  fullName : String
  parentPhone : String
  sessions : List (Nat × Session)
  createdAt : String
  updatedAt : String
  deriving DecidableEq, Repr

/-- An attendance log row as built by `DataManager.addAttendanceLog`
(data-manager.js lines 506-518). -/
structure AttendanceLog where
  id : Int
  date : String
  time : String
  studentId : JsVal
  studentName : String
  session : Nat
  attendance : String
  homework : String
  quiz : Int
  createdAt : String
  updatedAt : String
  deriving DecidableEq, Repr

/-- The raw input object handed to `DataManager.addAttendanceLog`. -/
structure LogData where
  id : Option Int
  date : Option String
  time : Option String
  studentId : JsVal
  studentName : String
  session : Nat
  attendance : Option String
  homework : Option String
  quiz : Option Int
  deriving DecidableEq, Repr

/-- A tombstone entry pushed by `DataManager.deleteStudentTemporary`
(data-manager.js lines 124-130).  The restore path also tolerates legacy
malformed shapes; this embedding models the canonical shape, the only one
`deleteStudentTemporary` produces. -/
structure DeletedEntry where
  student : Student
  record : Option StudentRecord
  logs : List AttendanceLog
  deletedAt : String
  deletedBy : String
  deriving DecidableEq, Repr

/-- The four collections held by the `DataManager` singleton. -/
structure DataManager where
  students : List Student
  studentRecords : List StudentRecord
  attendanceLogs : List AttendanceLog
  deletedStudents : List DeletedEntry
  deriving DecidableEq, Repr

/-- `String.prototype.trim`: strip leading and trailing whitespace
(implemented over the character list). -/
def jsTrim (s : String) : String :=
  String.mk (((s.data.dropWhile Char.isWhitespace).reverse.dropWhile
    Char.isWhitespace).reverse)

/-- Lower-casing of a string, used to express case-insensitive id
comparison (implemented over the character list). -/
def lowerStr (s : String) : String :=
  String.mk (s.data.map Char.toLower)

/-- `/^[\+\-\s\(\)\d]+$/.test` for the phone-number rule of
`CONFIG.validation.student.phoneNumber` (config.js line 131). -/
def phonePatternOk (s : String) : Bool :=
  s.length > 0 && s.data.all (fun c =>
    c.isDigit || c.isWhitespace || c == '+' || c == '-' || c == '(' || c == ')')

/-- `/^[^\s@]+@[^\s@]+\.[^\s@]+$/.test` for the optional email rule
(config.js line 136): local part, an at sign, a domain containing a dot,
no whitespace or extra at signs. -/
def emailPatternOk (s : String) : Bool :=
  match s.split (fun c => c == '@') with
  | [local_, domain] =>
    local_ ≠ "" && (local_.data.all (fun c => !c.isWhitespace)) &&
    (match domain.split (fun c => c == '.') with
     | [] => false
     | parts => parts.length ≥ 2 && parts.all (fun part =>
         part ≠ "" && part.data.all (fun c => !c.isWhitespace)))
  | _ => false

/-- `CONFIG.validateStudent` (config.js lines 173-198): returns the list of
accumulated error strings; the data is valid when the list is empty.
The rules table has entries for id (required), fullName (required, min
length 2), phoneNumber (required, pattern) and email (optional, pattern). -/
def validateStudent (sd : StudentInput) : List String :=
  (if !jsTruthy sd.id || jsTrim (jsToString sd.id) = "" then ["id is required"] else []) ++
  (if jsTrim sd.fullName = "" then ["fullName is required"]
   else if sd.fullName.length < 2 then ["fullName must be at least 2 characters long"]
   else []) ++
  (if jsTrim sd.phoneNumber = "" then ["phoneNumber is required"]
   else if !phonePatternOk sd.phoneNumber then ["phoneNumber format is invalid"]
   else []) ++
  (match sd.email with
   | some e => if e ≠ "" && !emailPatternOk e then ["email format is invalid"] else []
   | none => [])

/-- `DataManager.getStudentById` (line 70): first student whose id is
`==`-equal to the argument. -/
def getStudentById (dm : DataManager) (id : JsVal) : Option Student :=
  dm.students.find? (fun s => looseEq s.id id)

/-- `DataManager.getStudentRecord` (line 454). -/
def getStudentRecord (dm : DataManager) (studentId : JsVal) : Option StudentRecord :=
  dm.studentRecords.find? (fun r => looseEq r.id studentId)

/-- The fresh record object built by `DataManager.createStudentRecord`
(lines 429-446): the student's identity fields plus all `maxSessions`
session slots initialized empty. -/
def freshRecord (student : Student) (now : String) : StudentRecord :=
  { id := student.id, fullName := student.fullName, parentPhone := student.parentPhone,
    sessions := initSessions, createdAt := now, updatedAt := now }

/-- `DataManager.createStudentRecord` (lines 423-452): returns the existing
record if one matches, otherwise appends a record with all `maxSessions`
slots empty. -/
def createStudentRecord (dm : DataManager) (student : Student) (now : String) :
    DataManager × StudentRecord :=
  match dm.studentRecords.find? (fun r => looseEq r.id student.id) with
  | some r => (dm, r)
  | none =>
    ({ dm with studentRecords := dm.studentRecords ++ [freshRecord student now] },
     freshRecord student now)

/-- The trailing digit run of an id string, `id.match(/(\d+)$/)` followed by
`parseInt`; 0 when the id has no trailing digits. -/
def trailingNum (s : String) : Nat :=
  let ds := (s.data.reverse.takeWhile Char.isDigit).reverse
  ds.foldl (fun n c => 10 * n + (c.toNat - '0'.toNat)) 0

/-- The positive trailing numeric suffixes of the active student ids,
`numericIds` of `DataManager.generateNextAvailableId` (lines 736-743). -/
def numericSuffixes (students : List Student) : List Nat :=
  (students.map (fun s => trailingNum (jsToString s.id))).filter (fun n => 0 < n)

/-- `padStart(w, '0')`. -/
def padZero (s : String) (w : Nat) : String :=
  if s.length < w then String.mk (List.replicate (w - s.length) '0') ++ s else s

/-- Whether a string matches `/^\d{7}$/`. -/
def sevenDigits (s : String) : Bool :=
  s.length == 7 && s.data.all Char.isDigit

/-- Whether a string `includes('2024')`. -/
def includes2024 (s : String) : Bool :=
  decide (List.IsInfix "2024".data s.data)

/-- The format branch of `generateNextAvailableId` (lines 752-764): render
the next numeric id after the pattern of the last student's id. -/
def formatNextId (lastStudentId : String) (nextId : Nat) : String :=
  if sevenDigits lastStudentId then padZero (toString nextId) 7
  else if includes2024 lastStudentId then "2024" ++ padZero (toString nextId) 3
  else padZero (toString nextId) 4

/-- `DataManager.generateNextAvailableId` (lines 728-765). -/
def generateNextAvailableId (dm : DataManager) : String :=
  match dm.students.getLast? with
  | none => "2024001"
  | some lastS =>
    let numericIds := numericSuffixes dm.students
    if numericIds.isEmpty then "2024001"
    else
      let maxId := numericIds.foldl max 0
      formatNextId (jsToString lastS.id) (maxId + 1)

/-- The part of the duplicate-identity error text after the
machine-parseable prefix (line 778). -/
def dupMsgTail (id : JsVal) (existingName : String) (nextId : String) : String :=
  "Student with ID \"" ++ jsToString id ++ "\" already exists (" ++
    existingName ++ "). Suggested next ID: " ++ nextId

/-- The duplicate-identity error text of the enhanced `addStudent`
(line 778): the `DUPLICATE_ID|` prefix followed by the human-readable
message carrying the suggested next id. -/
def dupMsg (id : JsVal) (existingName : String) (nextId : String) : String :=
  "DUPLICATE_ID|" ++ dupMsgTail id existingName nextId

/-- The enhanced `DataManager.addStudent` (data-manager.js lines 768-800,
the later of the two class-body definitions, which wins in JavaScript). -/
def addStudent (dm : DataManager) (sd : StudentInput) (now : String) :
    DataManager × Except String Student :=
  let errors := validateStudent sd
  if !errors.isEmpty then
    (dm, .error ("Invalid student data: " ++ String.intercalate ", " errors))
  else
    match getStudentById dm sd.id with
    | some existing =>
      (dm, .error (dupMsg sd.id existing.fullName (generateNextAvailableId dm)))
    | none =>
      let student : Student :=
        { id := sd.id, fullName := sd.fullName, phoneNumber := sd.phoneNumber,
          email := jsOrStr sd.email "",
          contactMethod := jsOrStr sd.contactMethod "phone",
          parentPhone := jsOrStr sd.parentPhone "",
          gradeLevel := jsOrStr sd.gradeLevel "",
          center := jsOrStr sd.center "",
          school := jsOrStr sd.school "",
          createdAt := now, updatedAt := now }
      let dm1 := { dm with students := dm.students ++ [student] }
      ((createStudentRecord dm1 student now).1, .ok student)

/-- The session-bounds error text of `updateStudentSession` (line 474). -/
def sessionBoundsMsg : String := "Session number must be between 1 and 8"

/-- `DataManager.updateStudentSession` (lines 462-487).  The record is
fetched or created BEFORE the session-number bounds check, so a record
created on the fly survives a bounds-check throw.  The session slot is
written with a spread merge keeping unsupplied fields, except that the
date is always rewritten to the supplied date or today. -/
def updateStudentSession (dm : DataManager) (studentId : JsVal) (sessionNumber : Nat)
    (sd : SessionData) (today now : String) : DataManager × Except String StudentRecord :=
  let step : DataManager × Option StudentRecord :=
    match getStudentRecord dm studentId with
    | some r => (dm, some r)
    | none =>
      match getStudentById dm studentId with
      | none => (dm, none)
      | some student =>
        let cr := createStudentRecord dm student now
        (cr.1, some cr.2)
  match step.2 with
  | none =>
    (dm, .error ("Student with ID " ++ jsToString studentId ++ " not found"))
  | some r =>
    if sessionNumber < 1 || maxSessions < sessionNumber then
      (step.1, .error sessionBoundsMsg)
    else
      let r' : StudentRecord :=
        { r with
          sessions := setSession r.sessions sessionNumber
            (mergeSession (getSession r.sessions sessionNumber) sd today),
          updatedAt := now }
      ({ step.1 with
          studentRecords :=
            updateFirst (fun x => looseEq x.id studentId) (fun _ => r') step.1.studentRecords },
        .ok r')

/-- The key predicate of the attendance-log upsert (lines 500-504):
`log.studentId == logData.studentId && log.date === today &&
log.session == logData.session`. -/
def logKeyMatch (l : AttendanceLog) (studentId : JsVal) (date : String) (session : Nat) : Bool :=
  looseEq l.studentId studentId && l.date == date && l.session == session

/-- The log row object built by `DataManager.addAttendanceLog`
(lines 506-518): `CONFIG.homework.defaultOption` is "complete" and
`CONFIG.quiz.defaultScore` is 0 (`||`-defaulted), the date is the supplied
date or today and the session is `parseInt` of the supplied session. -/
def logEntryOf (ld : LogData) (freshId : Int) (todayDate now : String) : AttendanceLog :=
  { id := jsOrInt ld.id freshId, date := jsOrStr ld.date todayDate,
    time := jsOrStr ld.time now,
    studentId := ld.studentId, studentName := ld.studentName, session := ld.session,
    attendance := jsOrStr ld.attendance "",
    homework := jsOrStr ld.homework "complete",
    quiz := jsOrInt ld.quiz 0,
    createdAt := now, updatedAt := now }

/-- The in-place overwrite of an existing log row (lines 520-524): the new
row keeps the existing row's id and creation timestamp. -/
def upsertEntry (entry oldLog : AttendanceLog) : AttendanceLog :=
  { entry with id := oldLog.id, createdAt := oldLog.createdAt }

/-- `DataManager.addAttendanceLog` (lines 490-532): validates required
fields by truthiness, then upserts on the (studentId, date, session) key,
preserving the original id and creation timestamp on overwrite and
prepending new rows. -/
def addAttendanceLog (dm : DataManager) (ld : LogData) (freshId : Int)
    (todayDate now : String) : DataManager × Except String AttendanceLog :=
  if !jsTruthy ld.studentId then (dm, .error "studentId is required for attendance log")
  else if ld.studentName = "" then (dm, .error "studentName is required for attendance log")
  else if ld.session = 0 then (dm, .error "session is required for attendance log")
  else if jsOrStr ld.attendance "" = "" then
    (dm, .error "attendance is required for attendance log")
  else
    let today := jsOrStr ld.date todayDate
    let entry := logEntryOf ld freshId todayDate now
    match extractFirst (fun l => logKeyMatch l ld.studentId today ld.session)
        dm.attendanceLogs with
    | some (before, oldLog, after) =>
      ({ dm with attendanceLogs := before ++ upsertEntry entry oldLog :: after },
       .ok (upsertEntry entry oldLog))
    | none =>
      ({ dm with attendanceLogs := entry :: dm.attendanceLogs }, .ok entry)

/-- `DataManager.deleteStudentTemporary` (lines 111-140): splices the first
`==`-matching student out, captures its record and logs into a tombstone,
and filters the record and log collections. -/
def deleteStudentTemporary (dm : DataManager) (id : JsVal) (now : String) :
    DataManager × Except String DeletedEntry :=
  match extractFirst (fun s => looseEq s.id id) dm.students with
  | none => (dm, .error ("Student with ID " ++ jsToString id ++ " not found"))
  | some (before, student, after) =>
    let entry : DeletedEntry :=
      { student := student,
        record := dm.studentRecords.find? (fun r => looseEq r.id id),
        logs := dm.attendanceLogs.filter (fun l => looseEq l.studentId id),
        deletedAt := now, deletedBy := "system" }
    ({ students := before ++ after,
       studentRecords := dm.studentRecords.filter (fun r => !looseEq r.id id),
       attendanceLogs := dm.attendanceLogs.filter (fun l => !looseEq l.studentId id),
       deletedStudents := dm.deletedStudents ++ [entry] }, .ok entry)

/-- The log-restore upsert predicate of `restoreStudent` (lines 250-254). -/
def restoreKeyMatch (existing log : AttendanceLog) : Bool :=
  looseEq existing.studentId log.studentId && existing.date == log.date &&
    existing.session == log.session

/-- One step of the `deletedData.logs.forEach` loop of `restoreStudent`
(lines 249-263): update a key-matching row in place, else push. -/
def restoreLogStep (acc : List AttendanceLog) (log : AttendanceLog) : List AttendanceLog :=
  match extractFirst (fun ex => restoreKeyMatch ex log) acc with
  | some (before, _, after) => before ++ log :: after
  | none => acc ++ [log]

/-- `DataManager.restoreStudent` (lines 146-269) on canonical tombstone
entries (the shape produced by `deleteStudentTemporary`; the legacy-shape
repair branches apply only to malformed imported data).  The tombstone is
spliced out FIRST; if the id then turns out to collide with an active
student, it is re-inserted at its old index and the call throws. -/
def restoreStudent (dm : DataManager) (id : JsVal) (now : String) :
    DataManager × Except String Student :=
  match extractFirst (fun e => looseEq e.student.id id) dm.deletedStudents with
  | none => (dm, .error ("Deleted student with ID " ++ jsToString id ++ " not found"))
  | some (before, entry, after) =>
    let dm1 := { dm with deletedStudents := before ++ after }
    if !jsTruthy entry.student.id then
      (dm1, .error "Invalid deleted student data structure")
    else
      match getStudentById dm1 entry.student.id with
      | some _ =>
        ({ dm1 with deletedStudents := before ++ entry :: after },
         .error ("Student with ID " ++ jsToString entry.student.id ++
           " already exists in active students"))
      | none =>
        let dm2 := { dm1 with students := dm1.students ++ [entry.student] }
        let dm3 :=
          match entry.record with
          | some r =>
            match extractFirst (fun x : StudentRecord => looseEq x.id entry.student.id)
                dm2.studentRecords with
            | some (rb, _, ra) => { dm2 with studentRecords := rb ++ r :: ra }
            | none => { dm2 with studentRecords := dm2.studentRecords ++ [r] }
          | none => (createStudentRecord dm2 entry.student now).1
        ({ dm3 with attendanceLogs := entry.logs.foldl restoreLogStep dm3.attendanceLogs },
         .ok entry.student)

end DM

/-- A top-level field of an imported JSON body: absent, an array of typed
rows, or present but not an array (the non-array value abstracted to a
tag, since no handler ever looks inside it before validation). -/
inductive JField (α : Type) where
  | missing
  | arr (xs : List α)
  | nonArray (tag : String)
  deriving DecidableEq, Repr

/-- `Array.isArray` on a field. -/
def JField.isArr : JField α → Bool
  | .arr _ => true
  | _ => false

/-- The array rows of a field (empty when not an array). -/
def JField.rows : JField α → List α
  | .arr xs => xs
  | _ => []

namespace DM

/-- The raw body handed to `DataManager.importData`. -/
structure RawImport where
  students : JField Student
  studentRecords : JField StudentRecord
  attendanceLogs : JField AttendanceLog
  deletedStudents : JField DeletedEntry
  deriving DecidableEq, Repr

/-- `DataManager.importData` (data-manager.js lines 682-724, the later of
the two class-body definitions): validates that each of `students`,
`studentRecords` and `attendanceLogs` is an array (in that order) and
throws before touching any collection when one is not; on success all four
collections are replaced, `deletedStudents` falling back to `[]` when
absent.  Nothing in the guarded body can throw, so the backup/restore
`catch` is never taken. -/
def importData (dm : DataManager) (data : RawImport) :
    DataManager × Except String (Nat × Nat × Nat × Nat) :=
  if !data.students.isArr then
    (dm, .error "Invalid or missing students array")
  else if !data.studentRecords.isArr then
    (dm, .error "Invalid or missing studentRecords array")
  else if !data.attendanceLogs.isArr then
    (dm, .error "Invalid or missing attendanceLogs array")
  else
    let dm' : DataManager :=
      { students := data.students.rows,
        studentRecords := data.studentRecords.rows,
        attendanceLogs := data.attendanceLogs.rows,
        deletedStudents := data.deletedStudents.rows }
    (dm', .ok (data.students.rows.length, data.studentRecords.rows.length,
      data.attendanceLogs.rows.length, data.deletedStudents.rows.length))

end DM

namespace Server

/-- A student object as held in the server's `appData.students`
(server.js).  Targeted adds stamp `createdAt`/`updatedAt`; a student
adopted through the `qr-scan` handler carries `syncedFromClient: true`,
a fresh `createdAt` and no `updatedAt`. -/
structure Student where
  id : JsVal
  fullName : String
  parentPhone : String
  syncedFromClient : Bool
  createdAt : String
  updatedAt : Option String
  deriving DecidableEq, Repr

/-- A student record held in `appData.studentRecords`; the `qr-scan`
handler creates records with an empty `sessions` object and no
`parentPhone`/`updatedAt` (server.js lines 272-279). -/
structure StudentRecord where
  id : JsVal
  fullName : String
  parentPhone : Option String
  sessions : List (Nat × Session)
  createdAt : String
  updatedAt : Option String
  deriving DecidableEq, Repr

/-- An attendance log row built by the server's `mark-attendance` handler
(server.js lines 205-217): unlike the client path there is no required-field
validation and no defaulting, so attendance, homework and quiz may be
absent (`parseInt` of an absent quiz is NaN, modelled as `none`). -/
structure AttendanceLog where
  id : Int
  date : String
  time : String
  studentId : JsVal
  studentName : String
  session : Nat
  attendance : Option String
  homework : Option String
  quiz : Option Int
  createdAt : String
  updatedAt : String
  deriving DecidableEq, Repr

/-- The server's in-memory authoritative collections (`appData`); the
fields the modelled handlers touch. -/
structure ServerState where
  students : List Student
  studentRecords : List StudentRecord
  attendanceLogs : List AttendanceLog
  deriving DecidableEq, Repr

/-- The payload of a `qr-scan` socket message: `{studentId, student?}`. -/
structure QRPayload where
  studentId : JsVal
  student : Option Student
  deriving DecidableEq, Repr

/-- The `qr-scan-result` reply. -/
inductive QRScanResult where
  | success (student : Student)
  | failure (error : String)
  deriving DecidableEq, Repr

/-- `SyncClient.sendQRScan` (sync client, `sendQRScan(studentId)`): the
emitted `qr-scan` payload is the object literal `{ studentId }`, so it
carries only the scanned id and never a cached student object.  (The
method first checks connectivity and emits nothing when offline; the
payload shape is what is modelled.) -/
def sendQRScan (studentId : JsVal) : QRPayload :=
  { studentId := studentId, student := none }

/-- `{...data.student, syncedFromClient: true, createdAt: ...}` from the
adopt branch of the `qr-scan` handler (server.js lines 263-267). -/
def adoptStudent (c : Student) (now : String) : Student :=
  { c with syncedFromClient := true, createdAt := now }

/-- The companion record created by the `qr-scan` adopt branch
(server.js lines 273-278). -/
def companionRecord (s : Student) (now : String) : StudentRecord :=
  { id := s.id, fullName := s.fullName, parentPhone := none, sessions := [],
    createdAt := now, updatedAt := none }

/-- The server's `qr-scan` handler (server.js lines 254-303): look the id
up with `===`; on a miss, adopt a client-supplied student copy (tagging it
and creating a companion record when none exists for its id) and answer
success; with no client copy either, answer failure "Student not found". -/
def qrScan (st : ServerState) (p : QRPayload) (now : String) :
    ServerState × QRScanResult :=
  match st.students.find? (fun s => strictEq s.id p.studentId) with
  | some s => (st, .success s)
  | none =>
    match p.student with
    | some c =>
      let adopted := adoptStudent c now
      let st1 := { st with students := st.students ++ [adopted] }
      let st2 :=
        if st1.studentRecords.any (fun r => strictEq r.id adopted.id) then st1
        else { st1 with studentRecords := st1.studentRecords ++ [companionRecord adopted now] }
      (st2, .success adopted)
    | none => (st, .failure "Student not found")

/-- The payload of a `mark-attendance` socket message. -/
structure AttendanceData where
  studentId : JsVal
  studentName : String
  session : Nat
  attendance : Option String
  homework : Option String
  quiz : Option Int
  date : Option String
  time : Option String
  deriving DecidableEq, Repr

/-- The server's `mark-attendance` handler (server.js lines 187-250).
If a record with a `===`-matching id exists, the whole session slot is
REPLACED by `{attendance, homework, quiz, date: date || today}` (fields
absent from the message overwrite with undefined); if no record exists the
record update is silently skipped — no record is created.  The log upsert
then mirrors the client path, keyed by strict studentId/date/session. -/
def markAttendance (st : ServerState) (ad : AttendanceData) (freshId : Int)
    (today now : String) : ServerState × AttendanceLog :=
  let records' :=
    updateFirst (fun r => strictEq r.id ad.studentId)
      (fun r =>
        { r with
          sessions := setSession r.sessions ad.session
            ⟨ad.attendance, ad.homework, ad.quiz, some (jsOrStr ad.date today)⟩,
          updatedAt := some now })
      st.studentRecords
  let entry : AttendanceLog :=
    { id := freshId, date := jsOrStr ad.date today, time := jsOrStr ad.time now,
      studentId := ad.studentId, studentName := ad.studentName, session := ad.session,
      attendance := ad.attendance, homework := ad.homework, quiz := ad.quiz,
      createdAt := now, updatedAt := now }
  let logs' :=
    match extractFirst (fun l =>
        strictEq l.studentId ad.studentId && l.date == entry.date &&
          l.session == entry.session) st.attendanceLogs with
    | some (before, oldLog, after) =>
      before ++ { entry with id := oldLog.id, createdAt := oldLog.createdAt } :: after
    | none => entry :: st.attendanceLogs
  ({ st with studentRecords := records', attendanceLogs := logs' },
   (match extractFirst (fun l =>
        strictEq l.studentId ad.studentId && l.date == entry.date &&
          l.session == entry.session) st.attendanceLogs with
    | some (_, oldLog, _) => { entry with id := oldLog.id, createdAt := oldLog.createdAt }
    | none => entry))

/-- The server's whole `appData` viewed as a raw JSON object, as the
`POST /api/import` endpoint treats it (it spreads the request body over
`appData` without inspecting the collections). -/
structure RawDataset where
  students : JField Student
  studentRecords : JField StudentRecord
  attendanceLogs : JField AttendanceLog
  deriving DecidableEq, Repr

/-- The HTTP reply of the import endpoint. -/
inductive ImportResp where
  | badRequest (error : String)
  | success
  deriving DecidableEq, Repr

/-- The server's `POST /api/import` handler (server.js lines 349-379): the
ONLY validation is that `students` is present and array-shaped; when that
passes, the whole body replaces `appData`, including any non-array
`studentRecords` or `attendanceLogs`, before the response is computed. -/
def serverImport (appData : RawDataset) (body : RawDataset) : RawDataset × ImportResp :=
  if !body.students.isArr then
    (appData, .badRequest "Invalid data format")
  else
    ({ students := body.students, studentRecords := body.studentRecords,
       attendanceLogs := body.attendanceLogs }, .success)

end Server

/-! Concrete instances used by witnesses and counterexamples. -/

/-- A client-cached student object used to exercise the adopt branch. -/
def wStudent : Server.Student :=
  { id := .str "2024001", fullName := "Ahmed Ali", parentPhone := "0100000000",
    syncedFromClient := false, createdAt := "2024-01-01", updatedAt := none }

/-- An empty server state. -/
def wEmptyServer : Server.ServerState := ⟨[], [], []⟩

/-- A qr-scan payload carrying both the id and the cached student copy. -/
def wQrPayload : Server.QRPayload := ⟨.str "2024001", some wStudent⟩

/-- A server-side record for student "2024001" whose session 1 already
holds homework, quiz and date values. -/
def wRecord0 : Server.StudentRecord :=
  { id := .str "2024001", fullName := "Ahmed Ali", parentPhone := none,
    sessions := [(1, ⟨some "present", some "complete", some 8, some "1/15/2024"⟩)],
    createdAt := "c0", updatedAt := none }

/-- A server state holding only that record. -/
def wServer1 : Server.ServerState := ⟨[], [wRecord0], []⟩

/-- A mark-attendance message for "2024001" session 1 supplying ONLY the
attendance field. -/
def wAttOnly : Server.AttendanceData :=
  { studentId := .str "2024001", studentName := "Ahmed Ali", session := 1,
    attendance := some "absent", homework := none, quiz := none,
    date := none, time := none }

/-- A server-side student with id "3001" that has no StudentRecord. -/
def wStudent2 : Server.Student :=
  { id := .str "3001", fullName := "Sara Omar", parentPhone := "",
    syncedFromClient := false, createdAt := "c0", updatedAt := none }

/-- A server state with that student and an empty record collection. -/
def wServer2 : Server.ServerState := ⟨[wStudent2], [], []⟩

/-- A fully populated mark-attendance message for student "3001". -/
def wAttFull : Server.AttendanceData :=
  { studentId := .str "3001", studentName := "Sara Omar", session := 1,
    attendance := some "present", homework := some "complete", quiz := some 8,
    date := some "1/15/2024", time := some "10:00:00" }

/-- A client-side student used by the DataManager witnesses. -/
def wDmStudent : DM.Student :=
  { id := .str "2024001", fullName := "Ahmed Ali", phoneNumber := "0100000000",
    email := "", contactMethod := "phone", parentPhone := "0111111111",
    gradeLevel := "", center := "", school := "",
    createdAt := "c0", updatedAt := "c0" }

/-- A client-side record for "2024001" with populated session 1. -/
def wDmRecord : DM.StudentRecord :=
  { id := .str "2024001", fullName := "Ahmed Ali", parentPhone := "0111111111",
    sessions := [(1, ⟨some "present", some "complete", some 8, some "1/15/2024"⟩)],
    createdAt := "c0", updatedAt := "c0" }

/-- A DataManager with one student and no records. -/
def wDm1 : DM.DataManager := ⟨[wDmStudent], [], [], []⟩

/-- A DataManager with one student and its populated record. -/
def wDm2 : DM.DataManager := ⟨[wDmStudent], [wDmRecord], [], []⟩

/-- A second client-side student with id "2024002". -/
def wDmStudentB : DM.Student :=
  { id := .str "2024002", fullName := "Mona Adel", phoneNumber := "0122222222",
    email := "", contactMethod := "phone", parentPhone := "",
    gradeLevel := "", center := "", school := "",
    createdAt := "c0", updatedAt := "c0" }

/-- A DataManager holding "2024001" and "2024002". -/
def wDm3 : DM.DataManager := ⟨[wDmStudent, wDmStudentB], [], [], []⟩

/-- An add-student input reusing the taken id "2024001". -/
def wInputDup : DM.StudentInput :=
  { id := .str "2024001", fullName := "Ahmed Ali", phoneNumber := "0100000000",
    email := none, contactMethod := none, parentPhone := none,
    gradeLevel := none, center := none, school := none }

/-- A client-side student whose id is the string "A1". -/
def wDmStudentCase : DM.Student :=
  { id := .str "A1", fullName := "Ali Hassan", phoneNumber := "0100000000",
    email := "", contactMethod := "phone", parentPhone := "",
    gradeLevel := "", center := "", school := "",
    createdAt := "c0", updatedAt := "c0" }

/-- A DataManager holding only the student with id "A1". -/
def wDmCase : DM.DataManager := ⟨[wDmStudentCase], [], [], []⟩

/-- An add-student input whose id "a1" differs from "A1" only in case. -/
def wInputCase : DM.StudentInput :=
  { id := .str "a1", fullName := "Badr Nour", phoneNumber := "0111111111",
    email := none, contactMethod := none, parentPhone := none,
    gradeLevel := none, center := none, school := none }

/-- The student object `addStudent` builds from `wInputCase` at time "t". -/
def wAddedCase : DM.Student :=
  { id := .str "a1", fullName := "Badr Nour", phoneNumber := "0111111111",
    email := "", contactMethod := "phone", parentPhone := "",
    gradeLevel := "", center := "", school := "",
    createdAt := "t", updatedAt := "t" }

/-- A client-side student whose id is the NUMBER 2024001. -/
def wDmStudentNum : DM.Student :=
  { id := .num 2024001, fullName := "Nour Samir", phoneNumber := "0109999999",
    email := "", contactMethod := "phone", parentPhone := "",
    gradeLevel := "", center := "", school := "",
    createdAt := "c0", updatedAt := "c0" }

/-- A DataManager holding only the numeric-id student. -/
def wDm4 : DM.DataManager := ⟨[wDmStudentNum], [], [], []⟩

/-- First mark-attendance input for (2024001, 1/15/2024, session 1). -/
def wLogData1 : DM.LogData :=
  { id := none, date := some "1/15/2024", time := some "09:00:00",
    studentId := .str "2024001", studentName := "Ahmed Ali", session := 1,
    attendance := some "present", homework := some "complete", quiz := some 8 }

/-- Second mark-attendance input for the same key with different values. -/
def wLogData2 : DM.LogData :=
  { id := none, date := some "1/15/2024", time := some "11:00:00",
    studentId := .str "2024001", studentName := "Ahmed Ali", session := 1,
    attendance := some "absent", homework := some "partial", quiz := some 5 }

/-- A well-formed server dataset (all three collections arrays). -/
def wRaw0 : Server.RawDataset := ⟨.arr [], .arr [], .arr []⟩

/-- An import body whose studentRecords field is not an array. -/
def wBadBody : Server.RawDataset := ⟨.arr [], .nonArray "oops", .arr []⟩

/-- A client import body whose studentRecords field is not an array. -/
def wBadImport : DM.RawImport := ⟨.arr [], .nonArray "oops", .arr [], .missing⟩

/-- An attendance log row for student "2024001", session 1. -/
def wLogA1 : DM.AttendanceLog :=
  { id := 1, date := "1/15/2024", time := "09:00:00", studentId := .str "2024001",
    studentName := "Ahmed Ali", session := 1, attendance := "present",
    homework := "complete", quiz := 8, createdAt := "c1", updatedAt := "c1" }

/-- A second log row for student "2024001", session 2 on a later date. -/
def wLogA2 : DM.AttendanceLog :=
  { id := 2, date := "1/22/2024", time := "09:10:00", studentId := .str "2024001",
    studentName := "Ahmed Ali", session := 2, attendance := "absent",
    homework := "partial", quiz := 5, createdAt := "c2", updatedAt := "c2" }

/-- A log row belonging to the other student "2024002". -/
def wLogB : DM.AttendanceLog :=
  { id := 3, date := "1/15/2024", time := "09:20:00", studentId := .str "2024002",
    studentName := "Mona Adel", session := 1, attendance := "present",
    homework := "complete", quiz := 7, createdAt := "c3", updatedAt := "c3" }

/-- A DataManager with two students, one record and three log rows, used
to exercise the tombstone round trip. -/
def wDm6 : DM.DataManager :=
  ⟨[wDmStudent, wDmStudentB], [wDmRecord], [wLogB, wLogA1, wLogA2], []⟩

end StudentMgmt

namespace StudentMgmt

theorem looseEq_refl (v : JsVal) : looseEq v v = true := by
  cases v <;> simp [looseEq]

theorem strictEq_refl (v : JsVal) : strictEq v v = true := by
  cases v <;> simp [strictEq]

theorem getSession_append_of_none (ss : List (Nat × Session)) (n : Nat) (v : Session)
    (h : ∀ p ∈ ss, (p.1 == n) = false) :
    getSession (ss ++ [(n, v)]) n = some v := by
  induction ss with
  | nil => simp [getSession]
  | cons p ps ih =>
    have hp := h p (by simp)
    simp only [List.cons_append, getSession, List.find?_cons, hp]
    exact ih (fun q hq => h q (by simp [hq]))

theorem getSession_map_set (ss : List (Nat × Session)) (n : Nat) (v : Session)
    (h : ss.any (fun p => p.1 == n) = true) :
    getSession (ss.map (fun p => if p.1 == n then (n, v) else p)) n = some v := by
  induction ss with
  | nil => simp at h
  | cons p ps ih =>
    by_cases hp : (p.1 == n) = true
    · have hmap : (p :: ps).map (fun q => if q.1 == n then (n, v) else q)
          = (n, v) :: ps.map (fun q => if q.1 == n then (n, v) else q) := by
        simp only [List.map_cons, hp, if_true]
      rw [hmap]
      unfold getSession
      rw [List.find?_cons_of_pos _ (by simp)]
      rfl
    · have hp' : (p.1 == n) = false := by revert hp; cases (p.1 == n) <;> simp
      have hps : ps.any (fun p => p.1 == n) = true := by
        simp only [List.any_cons, hp', Bool.false_or] at h
        exact h
      simp only [List.map_cons, hp', if_neg, Bool.false_eq_true, not_false_iff]
      simpa only [getSession, List.find?_cons, hp'] using ih hps

theorem getSession_setSession (ss : List (Nat × Session)) (n : Nat) (v : Session) :
    getSession (setSession ss n v) n = some v := by
  unfold setSession
  by_cases h : ss.any (fun p => p.1 == n) = true
  · simpa only [h, if_true] using getSession_map_set ss n v h
  · have h' : ss.any (fun p => p.1 == n) = false := by
      revert h; cases ss.any (fun p => p.1 == n) <;> simp
    have hall : ∀ p ∈ ss, (p.1 == n) = false := by
      intro p hp
      by_contra hc
      have htrue : (p.1 == n) = true := by revert hc; cases (p.1 == n) <;> simp
      have : ss.any (fun p => p.1 == n) = true := List.any_eq_true.mpr ⟨p, hp, htrue⟩
      rw [this] at h'; exact Bool.true_eq_false.mp h'
    simpa only [h', Bool.false_eq_true, if_false] using getSession_append_of_none ss n v hall

/-- C1: a qr-scan for an id absent from the server's active students but
accompanied by a client-supplied student object makes the server adopt the
client copy — appending it tagged `syncedFromClient: true`, ensuring a
companion StudentRecord exists (creating exactly one when none did) — and
reply success with the adopted student; with no client copy either, the
reply is the failure "Student not found" and the state is unchanged. -/
theorem qr_scan_adopt_on_miss (st : Server.ServerState) (p : Server.QRPayload) (now : String)
    (hmiss : st.students.find? (fun s => strictEq s.id p.studentId) = none) :
    (∀ c, p.student = some c →
      (Server.qrScan st p now).2 = .success (Server.adoptStudent c now) ∧
      (Server.adoptStudent c now).syncedFromClient = true ∧
      (Server.qrScan st p now).1.students = st.students ++ [Server.adoptStudent c now] ∧
      (Server.qrScan st p now).1.studentRecords.any
        (fun r => strictEq r.id c.id) = true ∧
      (st.studentRecords.any (fun r => strictEq r.id c.id) = false →
        (Server.qrScan st p now).1.studentRecords
          = st.studentRecords ++ [Server.companionRecord (Server.adoptStudent c now) now] ∧
        (Server.qrScan st p now).1.studentRecords.countP
          (fun r => strictEq r.id c.id) = 1) ∧
      (st.studentRecords.any (fun r => strictEq r.id c.id) = true →
        (Server.qrScan st p now).1.studentRecords = st.studentRecords)) ∧
    (p.student = none → Server.qrScan st p now = (st, .failure "Student not found")) := by
  constructor
  · intro c hc
    by_cases hany : st.studentRecords.any (fun r => strictEq r.id c.id) = true
    · have hres : Server.qrScan st p now =
          (⟨st.students ++ [Server.adoptStudent c now], st.studentRecords,
            st.attendanceLogs⟩,
           .success (Server.adoptStudent c now)) := by
        unfold Server.qrScan
        rw [hmiss, hc]
        show (if st.studentRecords.any (fun r => strictEq r.id c.id) = true then _ else _,
          Server.QRScanResult.success _) = _
        rw [if_pos hany]
      rw [hres]
      refine ⟨rfl, rfl, rfl, hany, ?_, fun _ => rfl⟩
      intro hfalse
      rw [hany] at hfalse
      exact absurd hfalse (by simp)
    · have hany' : st.studentRecords.any (fun r => strictEq r.id c.id) = false := by
        revert hany; cases st.studentRecords.any (fun r => strictEq r.id c.id) <;> simp
      have hres : Server.qrScan st p now =
          (⟨st.students ++ [Server.adoptStudent c now],
            st.studentRecords ++ [Server.companionRecord (Server.adoptStudent c now) now],
            st.attendanceLogs⟩,
           .success (Server.adoptStudent c now)) := by
        unfold Server.qrScan
        rw [hmiss, hc]
        show (if st.studentRecords.any (fun r => strictEq r.id c.id) = true then _ else _,
          Server.QRScanResult.success _) = _
        rw [if_neg hany]
      rw [hres]
      have hzero : st.studentRecords.countP (fun r => strictEq r.id c.id) = 0 := by
        rw [List.countP_eq_zero]
        intro r hr
        by_contra hcon
        have htrue : strictEq r.id c.id = true := by
          revert hcon; cases strictEq r.id c.id <;> simp
        have hyes : st.studentRecords.any (fun r => strictEq r.id c.id) = true :=
          List.any_eq_true.mpr ⟨r, hr, htrue⟩
        rw [hyes] at hany'
        exact absurd hany' (by simp)
      have hcomp : strictEq (Server.companionRecord (Server.adoptStudent c now) now).id c.id
          = true := strictEq_refl c.id
      refine ⟨rfl, rfl, rfl, ?_, ?_, ?_⟩
      · rw [List.any_append]
        show (_ || [Server.companionRecord (Server.adoptStudent c now) now].any
          (fun r => strictEq r.id c.id)) = true
        rw [List.any_cons, hcomp]
        simp
      · intro _
        refine ⟨rfl, ?_⟩
        rw [List.countP_append, hzero, List.countP_cons, hcomp]
        rfl
      · intro habs
        rw [habs] at hany'
        exact absurd hany' (by simp)
  · intro hnone
    unfold Server.qrScan
    rw [hmiss, hnone]

/-- Witness for C1: on an empty server, scanning id "2024001" with a
client-supplied copy adopts the copy, answers success with it, and leaves
exactly one companion record. -/
theorem qr_scan_adopt_on_miss_witness :
    (wEmptyServer.students.find? (fun s => strictEq s.id wQrPayload.studentId) = none) ∧
    ((Server.qrScan wEmptyServer wQrPayload "2024-02-01").2
        = .success (Server.adoptStudent wStudent "2024-02-01") ∧
      (Server.qrScan wEmptyServer wQrPayload "2024-02-01").1.students
        = [Server.adoptStudent wStudent "2024-02-01"] ∧
      (Server.qrScan wEmptyServer wQrPayload "2024-02-01").1.studentRecords.countP
        (fun r => strictEq r.id wStudent.id) = 1) := by
  refine ⟨rfl, ?_⟩
  have h := (qr_scan_adopt_on_miss wEmptyServer wQrPayload "2024-02-01" rfl).1 wStudent rfl
  exact ⟨h.1, h.2.2.1, (h.2.2.2.2.1 rfl).2⟩

/-- C9: the sync client's `sendQRScan` emits a payload holding only the
scanned studentId and no cached student object, so the server's
adopt-on-miss branch cannot fire for it: scanning an id the server does
not know through this client yields the failure result "Student not
found" and leaves the server state unchanged. -/
theorem sendQRScan_unknown_always_fails (st : Server.ServerState) (sid : JsVal) (now : String)
    (habsent : st.students.find? (fun s => strictEq s.id sid) = none) :
    (Server.sendQRScan sid).student = none ∧
    Server.qrScan st (Server.sendQRScan sid) now = (st, .failure "Student not found") := by
  refine ⟨rfl, ?_⟩
  unfold Server.qrScan
  rw [show (Server.sendQRScan sid).studentId = sid from rfl, habsent]
  rfl

/-- Witness for C9: scanning the unknown id "9999" through the client
payload shape against an empty server fails with "Student not found". -/
theorem sendQRScan_unknown_always_fails_witness :
    (wEmptyServer.students.find? (fun s => strictEq s.id (JsVal.str "9999")) = none) ∧
    ((Server.sendQRScan (JsVal.str "9999")).student = none ∧
      Server.qrScan wEmptyServer (Server.sendQRScan (JsVal.str "9999")) "t"
        = (wEmptyServer, .failure "Student not found")) :=
  ⟨rfl, sendQRScan_unknown_always_fails wEmptyServer (JsVal.str "9999") "t" rfl⟩

theorem mergeSession_some (s0 : Session) (sd : SessionData) (today : String) :
    mergeSession (some s0) sd today =
      ⟨match sd.attendance with | some a => some a | none => s0.attendance,
       match sd.homework with | some h => some h | none => s0.homework,
       match sd.quiz with | some q => some q | none => s0.quiz,
       some (jsOrStr sd.date today)⟩ := rfl

theorem mergeSession_empty (sd : SessionData) (today : String) :
    mergeSession (some emptySession) sd today =
      ⟨sd.attendance, sd.homework, sd.quiz, some (jsOrStr sd.date today)⟩ := by
  rw [mergeSession_some]
  cases sd.attendance <;> cases sd.homework <;> cases sd.quiz <;> rfl

theorem getSession_initSessions (sn : Nat) (h1 : 1 ≤ sn) (h2 : sn ≤ maxSessions) :
    getSession initSessions sn = some emptySession := by
  unfold maxSessions at h2
  interval_cases sn <;> rfl

theorem updateFirst_append_of_none (l : List α) (x : α) (p : α → Bool) (f : α → α)
    (hl : ∀ y ∈ l, p y = false) (hx : p x = true) :
    updateFirst p f (l ++ [x]) = l ++ [f x] := by
  induction l with
  | nil => simp [updateFirst, hx]
  | cons y ys ih =>
    have hy := hl y (by simp)
    simp only [List.cons_append, updateFirst, hy, Bool.false_eq_true, if_false]
    exact congrArg (fun t => y :: t) (ih (fun z hz => hl z (by simp [hz])))

theorem updateFirst_of_all_none (l : List α) (p : α → Bool) (f : α → α)
    (hl : ∀ y ∈ l, p y = false) :
    updateFirst p f l = l := by
  induction l with
  | nil => rfl
  | cons y ys ih =>
    have hy := hl y (by simp)
    simp only [updateFirst, hy, Bool.false_eq_true, if_false]
    rw [ih (fun z hz => hl z (by simp [hz]))]

theorem find?_eq_none_all (l : List α) (p : α → Bool) (h : l.find? p = none) :
    ∀ y ∈ l, p y = false := by
  intro y hy
  have := List.find?_eq_none.mp h y hy
  revert this; cases p y <;> simp

/-- C2 counterexample: the server's `mark-attendance` handler, given a
message that supplies only the attendance field for a session slot whose
homework was "complete", quiz was 8 and date was "1/15/2024", REPLACES the
whole slot: homework and quiz become absent and the date becomes today,
so the previously recorded homework/quiz/date are not preserved. -/
theorem mark_attendance_whole_replace_cex :
    (getSession wRecord0.sessions 1).map (fun s => s.homework) = some (some "complete") ∧
    (getSession wRecord0.sessions 1).map (fun s => s.quiz) = some (some 8) ∧
    ((Server.markAttendance wServer1 wAttOnly 7 "2/1/2024" "t2").1.studentRecords.map
      (fun r => getSession r.sessions 1))
      = [some ⟨some "absent", none, none, some "2/1/2024"⟩] := by
  refine ⟨rfl, rfl, ?_⟩
  rfl

/-- C2 (amended): in `DataManager.updateStudentSession`, marking only
`attendance` for a session slot keeps the previously recorded homework
and quiz of that slot, but the slot's date is always rewritten to the
supplied date or today (it is NOT kept); the server-side `mark-attendance`
handler replaces the whole slot instead. -/
theorem update_session_attendance_only_merge (dm : DM.DataManager) (sid : JsVal)
    (sn : Nat) (a today now : String) (r : DM.StudentRecord) (s0 : Session)
    (hrec : DM.getStudentRecord dm sid = some r)
    (hs : getSession r.sessions sn = some s0)
    (hlo : 1 ≤ sn) (hhi : sn ≤ maxSessions) :
    ∃ r', (DM.updateStudentSession dm sid sn ⟨some a, none, none, none⟩ today now).2
        = .ok r' ∧
      getSession r'.sessions sn = some ⟨some a, s0.homework, s0.quiz, some today⟩ := by
  have hcond : (decide (sn < 1) || decide (maxSessions < sn)) = false := by
    unfold maxSessions at hhi ⊢
    simp only [Bool.or_eq_false_iff, decide_eq_false_iff_not]
    omega
  refine ⟨{ r with
      sessions := setSession r.sessions sn
        (mergeSession (getSession r.sessions sn) ⟨some a, none, none, none⟩ today),
      updatedAt := now }, ?_, ?_⟩
  · unfold DM.updateStudentSession
    rw [hrec]
    show (if (decide (sn < 1) || decide (maxSessions < sn)) = true
        then (_, Except.error _) else _ : DM.DataManager × Except String DM.StudentRecord).2
      = _
    rw [hcond]
    rfl
  · rw [getSession_setSession, hs, mergeSession_some]
    rfl

/-- Witness for C2 (amended): marking only attendance "absent" on session 1
of "2024001" keeps homework "complete" and quiz 8, the date becoming
today "2/1/2024". -/
theorem update_session_attendance_only_merge_witness :
    DM.getStudentRecord wDm2 (JsVal.str "2024001") = some wDmRecord ∧
    getSession wDmRecord.sessions 1
      = some ⟨some "present", some "complete", some 8, some "1/15/2024"⟩ ∧
    (∃ r', (DM.updateStudentSession wDm2 (JsVal.str "2024001") 1
        ⟨some "absent", none, none, none⟩ "2/1/2024" "t2").2 = .ok r' ∧
      getSession r'.sessions 1
        = some ⟨some "absent", some "complete", some 8, some "2/1/2024"⟩) := by
  refine ⟨rfl, rfl, ?_⟩
  exact update_session_attendance_only_merge wDm2 (JsVal.str "2024001") 1 "absent"
    "2/1/2024" "t2" wDmRecord ⟨some "present", some "complete", some 8, some "1/15/2024"⟩
    rfl rfl (by decide) (by decide)

/-- C3 counterexample: the server's `mark-attendance` handler does NOT
create a StudentRecord on the fly: marking attendance for student "3001",
who has no record, leaves the record collection without any record for
that id (the record write is silently skipped). -/
theorem mark_attendance_no_record_created_cex :
    (wServer2.students.map (fun s => s.id)) = [JsVal.str "3001"] ∧
    ((Server.markAttendance wServer2 wAttFull 7 "1/15/2024" "t").1.studentRecords.any
      (fun r => looseEq r.id wAttFull.studentId)) = false ∧
    (Server.markAttendance wServer2 wAttFull 7 "1/15/2024" "t").1.studentRecords = [] := by
  exact ⟨rfl, rfl, rfl⟩

/-- C3 (amended): in `DataManager.updateStudentSession` — the path the
spec sentence describes — a call whose studentId has no StudentRecord but
does belong to an active student creates the record on the fly (for an
in-range session number) and the new record carries the written session
data; the server's `mark-attendance` handler instead skips the record
write when no record exists, and the client path throws without writing
when the id belongs to no active student. -/
theorem update_session_creates_record (dm : DM.DataManager) (sid : JsVal) (sn : Nat)
    (sd : SessionData) (today now : String) (A : DM.Student)
    (hnorec : DM.getStudentRecord dm sid = none)
    (hstu : DM.getStudentById dm sid = some A)
    (hnorecA : dm.studentRecords.find? (fun r => looseEq r.id A.id) = none)
    (hlo : 1 ≤ sn) (hhi : sn ≤ maxSessions) :
    ∃ r', (DM.updateStudentSession dm sid sn sd today now).2 = .ok r' ∧
      (DM.updateStudentSession dm sid sn sd today now).1.studentRecords
        = dm.studentRecords ++ [r'] ∧
      looseEq r'.id sid = true ∧
      getSession r'.sessions sn
        = some ⟨sd.attendance, sd.homework, sd.quiz, some (jsOrStr sd.date today)⟩ := by
  have hstu' : dm.students.find? (fun s => looseEq s.id sid) = some A := hstu
  have hA0 := List.find?_some hstu'
  have hA : looseEq A.id sid = true := hA0
  have hcond : (decide (sn < 1) || decide (maxSessions < sn)) = false := by
    unfold maxSessions at hhi ⊢
    simp only [Bool.or_eq_false_iff, decide_eq_false_iff_not]
    omega
  have hfresh : DM.createStudentRecord dm A now
      = ({ dm with studentRecords := dm.studentRecords ++ [DM.freshRecord A now] },
         DM.freshRecord A now) := by
    unfold DM.createStudentRecord
    rw [hnorecA]
  refine ⟨⟨A.id, A.fullName, A.parentPhone,
      setSession initSessions sn (mergeSession (getSession initSessions sn) sd today),
      now, now⟩, ?_, ?_, hA, ?_⟩
  · unfold DM.updateStudentSession
    simp only [hnorec, hstu, hfresh, hcond, Bool.false_eq_true, if_false]
    rfl
  · unfold DM.updateStudentSession
    simp only [hnorec, hstu, hfresh, hcond, Bool.false_eq_true, if_false]
    show updateFirst (fun x => looseEq x.id sid) _
      (dm.studentRecords ++ [DM.freshRecord A now]) = _
    rw [updateFirst_append_of_none _ _ _ _
      (find?_eq_none_all _ _ hnorec) hA]
    rfl
  · rw [getSession_setSession, getSession_initSessions sn hlo hhi, mergeSession_empty]

/-- Witness for C3 (amended): student "2024001" is active with no record;
updating session 1 creates a record carrying the written data. -/
theorem update_session_creates_record_witness :
    DM.getStudentRecord wDm1 (JsVal.str "2024001") = none ∧
    DM.getStudentById wDm1 (JsVal.str "2024001") = some wDmStudent ∧
    (∃ r', (DM.updateStudentSession wDm1 (JsVal.str "2024001") 1
        ⟨some "present", some "complete", some 8, some "1/15/2024"⟩ "1/15/2024" "t").2
        = .ok r' ∧
      (DM.updateStudentSession wDm1 (JsVal.str "2024001") 1
        ⟨some "present", some "complete", some 8, some "1/15/2024"⟩ "1/15/2024" "t").1.studentRecords
        = wDm1.studentRecords ++ [r'] ∧
      looseEq r'.id (JsVal.str "2024001") = true ∧
      getSession r'.sessions 1
        = some ⟨some "present", some "complete", some 8, some "1/15/2024"⟩) := by
  refine ⟨rfl, rfl, ?_⟩
  have h := update_session_creates_record wDm1 (JsVal.str "2024001") 1
    ⟨some "present", some "complete", some 8, some "1/15/2024"⟩ "1/15/2024" "t"
    wDmStudent rfl rfl rfl (by decide) (by decide)
  obtain ⟨r', h1, h2, h3, h4⟩ := h
  exact ⟨r', h1, h2, h3, by rw [h4]; rfl⟩

/-- C10: calling `DataManager.updateStudentSession` for an active student
with no StudentRecord and an out-of-range session number throws the
session-number validation error, yet the freshly created empty
StudentRecord remains in the store after the throw — the creation side
effect is not rolled back. -/
theorem update_session_error_leaks_record (dm : DM.DataManager) (sid : JsVal) (sn : Nat)
    (sd : SessionData) (today now : String) (A : DM.Student)
    (hnorec : DM.getStudentRecord dm sid = none)
    (hstu : DM.getStudentById dm sid = some A)
    (hnorecA : dm.studentRecords.find? (fun r => looseEq r.id A.id) = none)
    (hout : sn < 1 ∨ maxSessions < sn) :
    (DM.updateStudentSession dm sid sn sd today now).2 = .error DM.sessionBoundsMsg ∧
    (DM.updateStudentSession dm sid sn sd today now).1.studentRecords
      = dm.studentRecords ++ [DM.freshRecord A now] ∧
    ((DM.updateStudentSession dm sid sn sd today now).1.studentRecords.any
      (fun r => looseEq r.id sid)) = true := by
  have hstu' : dm.students.find? (fun s => looseEq s.id sid) = some A := hstu
  have hA0 := List.find?_some hstu'
  have hA : looseEq A.id sid = true := hA0
  have hcond : (decide (sn < 1) || decide (maxSessions < sn)) = true := by
    rcases hout with h | h
    · simp [h]
    · simp [h]
  have hfresh : DM.createStudentRecord dm A now
      = ({ dm with studentRecords := dm.studentRecords ++ [DM.freshRecord A now] },
         DM.freshRecord A now) := by
    unfold DM.createStudentRecord
    rw [hnorecA]
  refine ⟨?_, ?_, ?_⟩
  · unfold DM.updateStudentSession
    simp only [hnorec, hstu, hfresh, hcond, if_true]
  · unfold DM.updateStudentSession
    simp only [hnorec, hstu, hfresh, hcond, if_true]
  · unfold DM.updateStudentSession
    simp only [hnorec, hstu, hfresh, hcond, if_true]
    show (dm.studentRecords ++ [DM.freshRecord A now]).any
      (fun r => looseEq r.id sid) = true
    rw [List.any_append]
    have hone : ([DM.freshRecord A now]
        : List DM.StudentRecord).any (fun r => looseEq r.id sid) = true := by
      rw [List.any_cons]
      show (looseEq A.id sid ||
        List.any ([] : List DM.StudentRecord) fun r => looseEq r.id sid) = true
      rw [hA]
      rfl
    rw [hone, Bool.or_true]

/-- Witness for C10: on a store holding only active student "2024001"
with no record, updating session 0 errors with the bounds message while
leaving behind a fresh empty record for "2024001". -/
theorem update_session_error_leaks_record_witness :
    DM.getStudentRecord wDm1 (JsVal.str "2024001") = none ∧
    DM.getStudentById wDm1 (JsVal.str "2024001") = some wDmStudent ∧
    (0 < 1 ∨ maxSessions < 0) ∧
    ((DM.updateStudentSession wDm1 (JsVal.str "2024001") 0
        ⟨some "present", none, none, none⟩ "d" "t").2 = .error DM.sessionBoundsMsg ∧
      ((DM.updateStudentSession wDm1 (JsVal.str "2024001") 0
        ⟨some "present", none, none, none⟩ "d" "t").1.studentRecords.any
        (fun r => looseEq r.id (JsVal.str "2024001"))) = true) := by
  refine ⟨rfl, rfl, Or.inl (by decide), ?_⟩
  have h := update_session_error_leaks_record wDm1 (JsVal.str "2024001") 0
    ⟨some "present", none, none, none⟩ "d" "t" wDmStudent rfl rfl rfl
    (Or.inl (by decide))
  exact ⟨h.1, h.2.2⟩

theorem init_le_foldl_max (l : List Nat) (a : Nat) : a ≤ l.foldl max a := by
  induction l generalizing a with
  | nil => exact Nat.le_refl a
  | cons x xs ih => exact Nat.le_trans (Nat.le_max_left a x) (ih (max a x))

theorem le_foldl_max (l : List Nat) : ∀ (a k : Nat), k ∈ l → k ≤ l.foldl max a := by
  induction l with
  | nil => intro a k hk; cases hk
  | cons x xs ih =>
    intro a k hk
    rcases List.mem_cons.mp hk with rfl | h
    · exact Nat.le_trans (Nat.le_max_right a k) (init_le_foldl_max xs (max a k))
    · exact ih (max a x) k h

theorem foldl_max_mem (l : List Nat) (a : Nat) :
    l.foldl max a = a ∨ l.foldl max a ∈ l := by
  induction l generalizing a with
  | nil => exact Or.inl rfl
  | cons x xs ih =>
    rcases ih (max a x) with h | h
    · rcases max_choice a x with hax | hax
      · exact Or.inl (by rw [List.foldl_cons, h, hax])
      · exact Or.inr (by rw [List.foldl_cons, h, hax]; exact List.mem_cons_self x xs)
    · exact Or.inr (List.mem_cons_of_mem x h)

/-- C4 counterexample: the duplicate check is NOT case-insensitive:
with student "A1" committed, adding a student whose id "a1" differs only
in letter case succeeds and appends it, instead of failing with a
duplicate-identity error as the claim requires for ids equal under
case/type-loose comparison. -/
theorem add_student_case_loose_dup_cex :
    DM.lowerStr (jsToString wDmStudentCase.id) = DM.lowerStr (jsToString wInputCase.id) ∧
    (DM.addStudent wDmCase wInputCase "t").2 = .ok wAddedCase ∧
    (DM.addStudent wDmCase wInputCase "t").1.students = [wDmStudentCase, wAddedCase] := by
  exact ⟨rfl, rfl, rfl⟩

/-- C4 (amended): for students A and B whose ids are equal under
JavaScript's TYPE-loose `==` (so a numeric id equals its digit-string
form, but comparison stays case-sensitive), adding B after A is committed
fails with a duplicate-identity error carrying the `DUPLICATE_ID|` prefix,
B is not appended, and the whole store — A's entry and record included —
is unchanged. -/
theorem add_student_duplicate_rejected (dm : DM.DataManager) (b : DM.StudentInput)
    (now : String) (E : DM.Student)
    (hval : DM.validateStudent b = [])
    (hdup : DM.getStudentById dm b.id = some E) :
    DM.addStudent dm b now
      = (dm, .error (DM.dupMsg b.id E.fullName (DM.generateNextAvailableId dm))) ∧
    (∃ rest, DM.dupMsg b.id E.fullName (DM.generateNextAvailableId dm)
      = "DUPLICATE_ID|" ++ rest) := by
  constructor
  · unfold DM.addStudent
    simp only [hval, hdup, List.isEmpty_nil, Bool.not_true, Bool.false_eq_true, if_false]
  · exact ⟨_, rfl⟩

/-- Witness for C4 (amended): the number 2024001 and the string "2024001"
are `==`-equal ids, so the string add is rejected with the prefixed error
and the store is unchanged. -/
theorem add_student_duplicate_rejected_witness :
    DM.validateStudent wInputDup = [] ∧
    DM.getStudentById wDm4 wInputDup.id = some wDmStudentNum ∧
    looseEq wDmStudentNum.id wInputDup.id = true ∧
    (DM.addStudent wDm4 wInputDup "t"
      = (wDm4, .error (DM.dupMsg wInputDup.id wDmStudentNum.fullName
          (DM.generateNextAvailableId wDm4))) ∧
     (∃ rest, DM.dupMsg wInputDup.id wDmStudentNum.fullName
        (DM.generateNextAvailableId wDm4) = "DUPLICATE_ID|" ++ rest)) := by
  refine ⟨rfl, rfl, rfl, ?_⟩
  exact add_student_duplicate_rejected wDm4 wInputDup "t" wDmStudentNum rfl rfl

/-- C8: rejecting a duplicate add surfaces an error that starts with the
machine-parseable `DUPLICATE_ID|` prefix and carries a suggested next id
equal to one plus the maximum positive trailing numeric suffix among the
active student ids, rendered by the format branch keyed to the pattern of
the last student's id. -/
theorem add_student_duplicate_suggests_next_id (dm : DM.DataManager)
    (b : DM.StudentInput) (now : String) (E lastS : DM.Student)
    (hval : DM.validateStudent b = [])
    (hdup : DM.getStudentById dm b.id = some E)
    (hlast : dm.students.getLast? = some lastS)
    (hnum : DM.numericSuffixes dm.students ≠ []) :
    ∃ m, m ∈ DM.numericSuffixes dm.students ∧
      (∀ k ∈ DM.numericSuffixes dm.students, k ≤ m) ∧
      (DM.addStudent dm b now).2 = .error ("DUPLICATE_ID|" ++
        DM.dupMsgTail b.id E.fullName
          (DM.formatNextId (jsToString lastS.id) (m + 1))) := by
  have hpos : ∀ k ∈ DM.numericSuffixes dm.students, 0 < k := by
    intro k hk
    have := (List.mem_filter.mp hk).2
    exact of_decide_eq_true this
  have hempty : (DM.numericSuffixes dm.students).isEmpty = false := by
    cases hL : DM.numericSuffixes dm.students with
    | nil => exact absurd hL hnum
    | cons x xs => rfl
  have hmem : (DM.numericSuffixes dm.students).foldl max 0
      ∈ DM.numericSuffixes dm.students := by
    rcases foldl_max_mem (DM.numericSuffixes dm.students) 0 with h | h
    · cases hL : DM.numericSuffixes dm.students with
      | nil => exact absurd hL hnum
      | cons x xs =>
        have hx : x ∈ DM.numericSuffixes dm.students := by rw [hL]; exact List.mem_cons_self x xs
        have hxpos := hpos x hx
        have hxle := le_foldl_max (DM.numericSuffixes dm.students) 0 x hx
        rw [h] at hxle
        omega
    · exact h
  have hgen : DM.generateNextAvailableId dm
      = DM.formatNextId (jsToString lastS.id)
          ((DM.numericSuffixes dm.students).foldl max 0 + 1) := by
    unfold DM.generateNextAvailableId
    rw [hlast]
    simp only [hempty, Bool.false_eq_true, if_false]
  refine ⟨(DM.numericSuffixes dm.students).foldl max 0, hmem,
    (fun k hk => le_foldl_max _ 0 k hk), ?_⟩
  unfold DM.addStudent
  simp only [hval, hdup, List.isEmpty_nil, Bool.not_true, Bool.false_eq_true, if_false]
  rw [hgen]
  rfl

/-- Witness for C8: with active ids "2024001" and "2024002", re-adding
"2024001" is rejected with a `DUPLICATE_ID|`-prefixed message suggesting
the next id rendered from suffix maximum 2024002 plus one. -/
theorem add_student_duplicate_suggests_next_id_witness :
    DM.validateStudent wInputDup = [] ∧
    DM.getStudentById wDm3 wInputDup.id = some wDmStudent ∧
    wDm3.students.getLast? = some wDmStudentB ∧
    DM.numericSuffixes wDm3.students ≠ [] ∧
    (∃ m, m ∈ DM.numericSuffixes wDm3.students ∧
      (∀ k ∈ DM.numericSuffixes wDm3.students, k ≤ m) ∧
      (DM.addStudent wDm3 wInputDup "t").2 = .error ("DUPLICATE_ID|" ++
        DM.dupMsgTail wInputDup.id wDmStudent.fullName
          (DM.formatNextId (jsToString wDmStudentB.id) (m + 1)))) := by
  refine ⟨rfl, rfl, rfl, by decide, ?_⟩
  exact add_student_duplicate_suggests_next_id wDm3 wInputDup "t" wDmStudent wDmStudentB
    rfl rfl rfl (by decide)

theorem extractFirst_eq_none (l : List α) (p : α → Bool)
    (h : ∀ y ∈ l, p y = false) : extractFirst p l = none := by
  induction l with
  | nil => rfl
  | cons x xs ih =>
    have hx := h x (by simp)
    simp only [extractFirst, hx, Bool.false_eq_true, if_false]
    rw [ih (fun z hz => h z (by simp [hz]))]
    rfl

theorem extractFirst_cons_of_pos (x : α) (xs : List α) (p : α → Bool)
    (hx : p x = true) : extractFirst p (x :: xs) = some ([], x, xs) := by
  simp only [extractFirst, hx, if_true]

theorem jsOrStr_some_of_ne (s d : String) (h : s ≠ "") : jsOrStr (some s) d = s := by
  show (if s = "" then d else s) = s
  rw [if_neg h]

theorem jsOrInt_some_self (q : Int) : jsOrInt (some q) 0 = q := by
  show (if q = 0 then 0 else q) = q
  by_cases h : q = 0
  · rw [if_pos h, h]
  · rw [if_neg h]

theorem addAttendanceLog_fresh (dm : DM.DataManager) (ld : DM.LogData)
    (freshId : Int) (todayD now : String)
    (h1 : jsTruthy ld.studentId = true) (h2 : ld.studentName ≠ "")
    (h3 : ld.session ≠ 0) (h4 : jsOrStr ld.attendance "" ≠ "")
    (hnone : extractFirst
        (fun l => DM.logKeyMatch l ld.studentId (jsOrStr ld.date todayD) ld.session)
        dm.attendanceLogs = none) :
    DM.addAttendanceLog dm ld freshId todayD now
      = ({ dm with attendanceLogs :=
            DM.logEntryOf ld freshId todayD now :: dm.attendanceLogs },
         .ok (DM.logEntryOf ld freshId todayD now)) := by
  unfold DM.addAttendanceLog
  simp only [h1, Bool.not_true, Bool.false_eq_true, if_false, if_neg h2, if_neg h3,
    if_neg h4, hnone]

theorem addAttendanceLog_upsert (dm : DM.DataManager) (ld : DM.LogData)
    (freshId : Int) (todayD now : String)
    (before after : List DM.AttendanceLog) (oldLog : DM.AttendanceLog)
    (h1 : jsTruthy ld.studentId = true) (h2 : ld.studentName ≠ "")
    (h3 : ld.session ≠ 0) (h4 : jsOrStr ld.attendance "" ≠ "")
    (hsplit : extractFirst
        (fun l => DM.logKeyMatch l ld.studentId (jsOrStr ld.date todayD) ld.session)
        dm.attendanceLogs = some (before, oldLog, after)) :
    DM.addAttendanceLog dm ld freshId todayD now
      = ({ dm with attendanceLogs :=
            before ++ DM.upsertEntry (DM.logEntryOf ld freshId todayD now) oldLog :: after },
         .ok (DM.upsertEntry (DM.logEntryOf ld freshId todayD now) oldLog)) := by
  unfold DM.addAttendanceLog
  simp only [h1, Bool.not_true, Bool.false_eq_true, if_false, if_neg h2, if_neg h3,
    if_neg h4, hsplit]

/-- C5: marking attendance twice for the same (studentId, date, session)
triple with different attendance/homework/quiz values leaves exactly one
AttendanceLog entry for the triple, and that entry carries the second
call's attendance, homework and quiz together with the first call's id
and creation timestamp. -/
theorem attendance_upsert_key (dm : DM.DataManager) (d1 d2 : DM.LogData)
    (id1 id2 : Int) (td1 td2 n1 n2 dt : String) (a2 h2 : String) (q2 : Int)
    (hsid : d2.studentId = d1.studentId)
    (hsess : d2.session = d1.session)
    (hd1 : d1.date = some dt) (hd2 : d2.date = some dt) (hdt : dt ≠ "")
    (ht1 : jsTruthy d1.studentId = true) (hn1 : d1.studentName ≠ "")
    (hs1 : d1.session ≠ 0) (ha1 : jsOrStr d1.attendance "" ≠ "")
    (hn2 : d2.studentName ≠ "")
    (ha2 : d2.attendance = some a2) (ha2' : a2 ≠ "")
    (hh2 : d2.homework = some h2) (hh2' : h2 ≠ "")
    (hq2 : d2.quiz = some q2)
    (hid1 : d1.id = none)
    (hnone : ∀ l ∈ dm.attendanceLogs,
      DM.logKeyMatch l d1.studentId dt d1.session = false) :
    ∃ e : DM.AttendanceLog,
      (DM.addAttendanceLog
          (DM.addAttendanceLog dm d1 id1 td1 n1).1 d2 id2 td2 n2).1.attendanceLogs
        = e :: dm.attendanceLogs ∧
      e.id = id1 ∧ e.createdAt = n1 ∧
      e.attendance = a2 ∧ e.homework = h2 ∧ e.quiz = q2 ∧
      (DM.addAttendanceLog
          (DM.addAttendanceLog dm d1 id1 td1 n1).1 d2 id2 td2 n2).1.attendanceLogs.countP
        (fun l => DM.logKeyMatch l d1.studentId dt d1.session) = 1 := by
  have hdate1 : jsOrStr d1.date td1 = dt := by rw [hd1]; exact jsOrStr_some_of_ne dt td1 hdt
  have hdate2 : jsOrStr d2.date td2 = dt := by rw [hd2]; exact jsOrStr_some_of_ne dt td2 hdt
  have hfst : DM.addAttendanceLog dm d1 id1 td1 n1
      = ({ dm with attendanceLogs :=
            DM.logEntryOf d1 id1 td1 n1 :: dm.attendanceLogs },
         .ok (DM.logEntryOf d1 id1 td1 n1)) := by
    apply addAttendanceLog_fresh dm d1 id1 td1 n1 ht1 hn1 hs1 ha1
    rw [hdate1]
    exact extractFirst_eq_none _ _ hnone
  have he1key : DM.logKeyMatch (DM.logEntryOf d1 id1 td1 n1) d2.studentId
      (jsOrStr d2.date td2) d2.session = true := by
    unfold DM.logKeyMatch DM.logEntryOf
    rw [hdate2, hsid, hsess, hdate1]
    simp [looseEq_refl]
  have ht2 : jsTruthy d2.studentId = true := by rw [hsid]; exact ht1
  have hs2 : d2.session ≠ 0 := by rw [hsess]; exact hs1
  have ha2t : jsOrStr d2.attendance "" ≠ "" := by
    rw [ha2, jsOrStr_some_of_ne a2 "" ha2']
    exact ha2'
  have hsnd : DM.addAttendanceLog
      ({ dm with attendanceLogs := DM.logEntryOf d1 id1 td1 n1 :: dm.attendanceLogs }
        : DM.DataManager) d2 id2 td2 n2
      = ({ dm with attendanceLogs :=
            DM.upsertEntry (DM.logEntryOf d2 id2 td2 n2) (DM.logEntryOf d1 id1 td1 n1)
              :: dm.attendanceLogs },
         .ok (DM.upsertEntry (DM.logEntryOf d2 id2 td2 n2)
            (DM.logEntryOf d1 id1 td1 n1))) := by
    have hx := addAttendanceLog_upsert
      ({ dm with attendanceLogs := DM.logEntryOf d1 id1 td1 n1 :: dm.attendanceLogs }
        : DM.DataManager) d2 id2 td2 n2 [] dm.attendanceLogs
      (DM.logEntryOf d1 id1 td1 n1) ht2 hn2 hs2 ha2t
      (extractFirst_cons_of_pos _ _ _ he1key)
    simpa using hx
  refine ⟨DM.upsertEntry (DM.logEntryOf d2 id2 td2 n2) (DM.logEntryOf d1 id1 td1 n1),
    ?_, ?_, ?_, ?_, ?_, ?_, ?_⟩
  · rw [hfst]
    show (DM.addAttendanceLog
        ({ dm with attendanceLogs := DM.logEntryOf d1 id1 td1 n1 :: dm.attendanceLogs }
          : DM.DataManager) d2 id2 td2 n2).1.attendanceLogs = _
    rw [hsnd]
  · show (DM.logEntryOf d1 id1 td1 n1).id = id1
    unfold DM.logEntryOf
    rw [hid1]
    rfl
  · rfl
  · show jsOrStr d2.attendance "" = a2
    rw [ha2]
    exact jsOrStr_some_of_ne a2 "" ha2'
  · show jsOrStr d2.homework "complete" = h2
    rw [hh2]
    exact jsOrStr_some_of_ne h2 "complete" hh2'
  · show jsOrInt d2.quiz 0 = q2
    rw [hq2]
    exact jsOrInt_some_self q2
  · rw [hfst]
    show (DM.addAttendanceLog
        ({ dm with attendanceLogs := DM.logEntryOf d1 id1 td1 n1 :: dm.attendanceLogs }
          : DM.DataManager) d2 id2 td2 n2).1.attendanceLogs.countP
        (fun l => DM.logKeyMatch l d1.studentId dt d1.session) = 1
    rw [hsnd]
    show List.countP (fun l => DM.logKeyMatch l d1.studentId dt d1.session)
      (DM.upsertEntry (DM.logEntryOf d2 id2 td2 n2) (DM.logEntryOf d1 id1 td1 n1)
        :: dm.attendanceLogs) = 1
    rw [List.countP_cons]
    have hk : DM.logKeyMatch
        (DM.upsertEntry (DM.logEntryOf d2 id2 td2 n2) (DM.logEntryOf d1 id1 td1 n1))
        d1.studentId dt d1.session = true := by
      unfold DM.logKeyMatch DM.upsertEntry DM.logEntryOf
      rw [hdate2]
      show (looseEq d2.studentId d1.studentId && (dt == dt) && (d2.session == d1.session))
        = true
      rw [hsid, hsess]
      simp [looseEq_refl]
    rw [hk]
    have hz : List.countP (fun l => DM.logKeyMatch l d1.studentId dt d1.session)
        dm.attendanceLogs = 0 := by
      rw [List.countP_eq_zero]
      intro l hl
      rw [hnone l hl]
      exact Bool.false_ne_true
    rw [hz]
    rfl

/-- Witness for C5: marking (2024001, 1/15/2024, session 1) as
present/complete/8 then absent/partial/5 leaves one row for that key with
the second call's values and the first call's id 100 and createdAt. -/
theorem attendance_upsert_key_witness :
    (∀ l ∈ (⟨[], [], [], []⟩ : DM.DataManager).attendanceLogs,
      DM.logKeyMatch l wLogData1.studentId "1/15/2024" wLogData1.session = false) ∧
    (∃ e : DM.AttendanceLog,
      (DM.addAttendanceLog
          (DM.addAttendanceLog ⟨[], [], [], []⟩ wLogData1 100 "1/15/2024" "n1").1
          wLogData2 200 "1/15/2024" "n2").1.attendanceLogs
        = e :: ([] : List DM.AttendanceLog) ∧
      e.id = 100 ∧ e.createdAt = "n1" ∧
      e.attendance = "absent" ∧ e.homework = "partial" ∧ e.quiz = 5 ∧
      (DM.addAttendanceLog
          (DM.addAttendanceLog ⟨[], [], [], []⟩ wLogData1 100 "1/15/2024" "n1").1
          wLogData2 200 "1/15/2024" "n2").1.attendanceLogs.countP
        (fun l => DM.logKeyMatch l wLogData1.studentId "1/15/2024" wLogData1.session)
        = 1) := by
  constructor
  · intro l hl
    cases hl
  exact attendance_upsert_key ⟨[], [], [], []⟩ wLogData1 wLogData2 100 200
    "1/15/2024" "1/15/2024" "n1" "n2" "1/15/2024" "absent" "partial" 5
    rfl rfl rfl rfl (by decide) rfl (by decide) (by decide) (by decide)
    (by decide) rfl (by decide) rfl (by decide) rfl rfl
    (by intro l hl; cases hl)

/-- C7 counterexample: the server's `POST /api/import` endpoint validates
only the `students` collection.  A body whose `students` is an array but
whose `studentRecords` is NOT an array is accepted with a success
response, and the non-array collection is committed into the
authoritative state — the previous state is not retained and the import
is not rejected. -/
theorem server_import_commits_unvalidated_cex :
    (Server.serverImport wRaw0 wBadBody).2 = .success ∧
    (Server.serverImport wRaw0 wBadBody).1.studentRecords = .nonArray "oops" ∧
    (Server.serverImport wRaw0 wBadBody).1.studentRecords.isArr = false ∧
    (Server.serverImport wRaw0 wBadBody).1 ≠ wRaw0 := by
  refine ⟨rfl, rfl, rfl, ?_⟩
  decide

/-- C7 (amended): the CLIENT store's `importData` validates that each of
students, studentRecords and attendanceLogs is array-shaped before
committing anything, and rejects with an error leaving the previous state
completely unchanged when any is not; the server's import endpoint
validates only the students collection and commits the other collections
unvalidated. -/
theorem import_data_validates_all_collections (dm : DM.DataManager)
    (data : DM.RawImport)
    (hbad : data.students.isArr = false ∨ data.studentRecords.isArr = false ∨
      data.attendanceLogs.isArr = false) :
    (DM.importData dm data).1 = dm ∧
    (∃ msg, (DM.importData dm data).2 = .error msg) := by
  unfold DM.importData
  cases hs : data.students.isArr with
  | false =>
    simp only [hs, Bool.not_false, if_true]
    exact ⟨trivial, ⟨_, rfl⟩⟩
  | true =>
    cases hr : data.studentRecords.isArr with
    | false =>
      simp only [hs, hr, Bool.not_true, Bool.not_false, Bool.false_eq_true, if_false,
        if_true]
      exact ⟨trivial, ⟨_, rfl⟩⟩
    | true =>
      cases ha : data.attendanceLogs.isArr with
      | false =>
        simp only [hs, hr, ha, Bool.not_true, Bool.not_false, Bool.false_eq_true,
          if_false, if_true]
        exact ⟨trivial, ⟨_, rfl⟩⟩
      | true =>
        exfalso
        rcases hbad with h | h | h
        · rw [hs] at h; exact Bool.noConfusion h
        · rw [hr] at h; exact Bool.noConfusion h
        · rw [ha] at h; exact Bool.noConfusion h

/-- Witness for C7 (amended): importing a body with non-array
studentRecords into a populated client store errors and leaves the store
unchanged. -/
theorem import_data_validates_all_collections_witness :
    (wBadImport.students.isArr = false ∨ wBadImport.studentRecords.isArr = false ∨
      wBadImport.attendanceLogs.isArr = false) ∧
    ((DM.importData wDm2 wBadImport).1 = wDm2 ∧
      (∃ msg, (DM.importData wDm2 wBadImport).2 = .error msg)) :=
  ⟨Or.inr (Or.inl rfl),
   import_data_validates_all_collections wDm2 wBadImport (Or.inr (Or.inl rfl))⟩

theorem extractFirst_append_mid (l1 l2 : List α) (x : α) (p : α → Bool)
    (h1 : ∀ y ∈ l1, p y = false) (hx : p x = true) :
    extractFirst p (l1 ++ x :: l2) = some (l1, x, l2) := by
  induction l1 with
  | nil => exact extractFirst_cons_of_pos x l2 p hx
  | cons y ys ih =>
    have hy := h1 y (by simp)
    simp only [List.cons_append, extractFirst, hy, Bool.false_eq_true, if_false]
    have hih : extractFirst p (ys.append (x :: l2)) = some (ys, x, l2) :=
      ih (fun z hz => h1 z (by simp [hz]))
    rw [hih]
    rfl

theorem find?_append_mid (l1 l2 : List α) (x : α) (p : α → Bool)
    (h1 : ∀ y ∈ l1, p y = false) (hx : p x = true) :
    (l1 ++ x :: l2).find? p = some x := by
  induction l1 with
  | nil =>
    show (x :: l2).find? p = some x
    rw [List.find?_cons_of_pos _ hx]
  | cons y ys ih =>
    have hy := h1 y (by simp)
    show ((y :: ys) ++ x :: l2).find? p = some x
    rw [List.cons_append, List.find?_cons_of_neg _ (by rw [hy]; exact Bool.noConfusion)]
    exact ih (fun z hz => h1 z (by simp [hz]))

theorem find?_eq_none_of_all (l : List α) (p : α → Bool)
    (h : ∀ y ∈ l, p y = false) : l.find? p = none :=
  List.find?_eq_none.mpr (fun y hy hc => by rw [h y hy] at hc; exact Bool.noConfusion hc)

theorem filter_not_eq_self_of (l : List α) (p : α → Bool)
    (h : ∀ y ∈ l, p y = false) : l.filter (fun y => !p y) = l := by
  induction l with
  | nil => rfl
  | cons y ys ih =>
    have hy := h y (by simp)
    rw [List.filter_cons_of_pos (by rw [hy]; rfl)]
    rw [ih (fun z hz => h z (by simp [hz]))]

theorem filter_not_mid (l1 l2 : List α) (x : α) (p : α → Bool)
    (h1 : ∀ y ∈ l1, p y = false) (h2 : ∀ y ∈ l2, p y = false) (hx : p x = true) :
    (l1 ++ x :: l2).filter (fun y => !p y) = l1 ++ l2 := by
  rw [List.filter_append, filter_not_eq_self_of l1 p h1,
    List.filter_cons_of_neg (by rw [hx]; exact Bool.noConfusion),
    filter_not_eq_self_of l2 p h2]

theorem foldl_restore_append (L : List DM.AttendanceLog) :
    ∀ acc : List DM.AttendanceLog,
    (∀ x ∈ acc, ∀ l ∈ L, DM.restoreKeyMatch x l = false) →
    L.Pairwise (fun a b => DM.restoreKeyMatch a b = false) →
    L.foldl DM.restoreLogStep acc = acc ++ L := by
  induction L with
  | nil => intro acc _ _; rw [List.foldl_nil, List.append_nil]
  | cons l L' ih =>
    intro acc hcross hpair
    have hstep : DM.restoreLogStep acc l = acc ++ [l] := by
      unfold DM.restoreLogStep
      rw [extractFirst_eq_none acc _ (fun x hx => hcross x hx l (by simp))]
    rw [List.foldl_cons, hstep]
    rw [ih (acc ++ [l]) ?hcross (List.Pairwise.sublist (List.sublist_cons_self l L') hpair)]
    · rw [List.append_assoc]
      rfl
    case hcross =>
      intro x hx b hb
      rcases List.mem_append.mp hx with hxa | hxl
      · exact hcross x hxa b (by simp [hb])
      · have hxeq : x = l := by simpa using hxl
        rw [hxeq]
        exact (List.pairwise_cons.mp hpair).1 b hb

/-- C6: soft-deleting an active student and then restoring it reproduces
the original student object, its StudentRecord with all prior session
data intact, and every AttendanceLog entry that existed for it at
deletion time (the final collections are permutations of the originals,
with the tombstone list back to its prior value), and a defensive second
restore throws "not found" without changing anything, so no duplicate log
rows can arise.  Hypotheses: the student's id occurs once among active
students, it has exactly one record, no tombstone for it pre-exists, its
id is truthy, its log rows carry the id verbatim and have pairwise
distinct (date, session) keys. -/
theorem tombstone_round_trip (dm : DM.DataManager) (A : DM.Student)
    (R : DM.StudentRecord) (s1 s2 : List DM.Student)
    (r1 r2 : List DM.StudentRecord) (now1 now2 now3 : String)
    (hs : dm.students = s1 ++ A :: s2)
    (hs1 : ∀ b ∈ s1, looseEq b.id A.id = false)
    (hs2 : ∀ b ∈ s2, looseEq b.id A.id = false)
    (hr : dm.studentRecords = r1 ++ R :: r2)
    (hR : looseEq R.id A.id = true)
    (hr1 : ∀ x ∈ r1, looseEq x.id A.id = false)
    (hr2 : ∀ x ∈ r2, looseEq x.id A.id = false)
    (hdel : ∀ e ∈ dm.deletedStudents, looseEq e.student.id A.id = false)
    (htr : jsTruthy A.id = true)
    (hlogid : ∀ l ∈ dm.attendanceLogs,
      looseEq l.studentId A.id = true → l.studentId = A.id)
    (hpair : (dm.attendanceLogs.filter (fun l => looseEq l.studentId A.id)).Pairwise
      (fun x y => x.date ≠ y.date ∨ x.session ≠ y.session)) :
    (DM.restoreStudent (DM.deleteStudentTemporary dm A.id now1).1 A.id now2).2 = .ok A ∧
    (DM.restoreStudent (DM.deleteStudentTemporary dm A.id now1).1 A.id now2).1.students
      = (s1 ++ s2) ++ [A] ∧
    ((DM.restoreStudent (DM.deleteStudentTemporary dm A.id now1).1 A.id now2).1.students).Perm
      dm.students ∧
    (DM.restoreStudent (DM.deleteStudentTemporary dm A.id now1).1 A.id now2).1.studentRecords
      = (r1 ++ r2) ++ [R] ∧
    ((DM.restoreStudent (DM.deleteStudentTemporary dm A.id now1).1 A.id
        now2).1.studentRecords).Perm dm.studentRecords ∧
    (DM.restoreStudent (DM.deleteStudentTemporary dm A.id now1).1 A.id now2).1.attendanceLogs
      = dm.attendanceLogs.filter (fun l => !looseEq l.studentId A.id)
        ++ dm.attendanceLogs.filter (fun l => looseEq l.studentId A.id) ∧
    ((DM.restoreStudent (DM.deleteStudentTemporary dm A.id now1).1 A.id
        now2).1.attendanceLogs).Perm dm.attendanceLogs ∧
    (DM.restoreStudent (DM.deleteStudentTemporary dm A.id now1).1 A.id
        now2).1.deletedStudents = dm.deletedStudents ∧
    DM.restoreStudent
        (DM.restoreStudent (DM.deleteStudentTemporary dm A.id now1).1 A.id now2).1 A.id now3
      = ((DM.restoreStudent (DM.deleteStudentTemporary dm A.id now1).1 A.id now2).1,
         .error ("Deleted student with ID " ++ jsToString A.id ++ " not found")) := by
  have hArefl : looseEq A.id A.id = true := looseEq_refl A.id
  have hsplitS : extractFirst (fun s : DM.Student => looseEq s.id A.id) dm.students
      = some (s1, A, s2) := by
    rw [hs]
    exact extractFirst_append_mid s1 s2 A _ hs1 hArefl
  have hfindR : dm.studentRecords.find? (fun r => looseEq r.id A.id) = some R := by
    rw [hr]
    exact find?_append_mid r1 r2 R _ hr1 hR
  have hdelete : DM.deleteStudentTemporary dm A.id now1
      = (⟨s1 ++ s2,
          dm.studentRecords.filter (fun r => !looseEq r.id A.id),
          dm.attendanceLogs.filter (fun l => !looseEq l.studentId A.id),
          dm.deletedStudents ++
            [⟨A, some R, dm.attendanceLogs.filter (fun l => looseEq l.studentId A.id),
              now1, "system"⟩]⟩,
        .ok ⟨A, some R, dm.attendanceLogs.filter (fun l => looseEq l.studentId A.id),
          now1, "system"⟩) := by
    unfold DM.deleteStudentTemporary
    rw [hsplitS, hfindR]
  have hsplitD : extractFirst (fun e : DM.DeletedEntry => looseEq e.student.id A.id)
      (dm.deletedStudents ++
        [⟨A, some R, dm.attendanceLogs.filter (fun l => looseEq l.studentId A.id),
          now1, "system"⟩])
      = some (dm.deletedStudents,
          ⟨A, some R, dm.attendanceLogs.filter (fun l => looseEq l.studentId A.id),
            now1, "system"⟩, []) :=
    extractFirst_append_mid dm.deletedStudents []
      ⟨A, some R, dm.attendanceLogs.filter (fun l => looseEq l.studentId A.id),
        now1, "system"⟩ _ hdel hArefl
  have hfindStu : (s1 ++ s2).find? (fun s => looseEq s.id A.id) = none := by
    apply find?_eq_none_of_all
    intro y hy
    rcases List.mem_append.mp hy with h | h
    · exact hs1 y h
    · exact hs2 y h
  have hfilterFalse : ∀ x ∈ dm.studentRecords.filter (fun r => !looseEq r.id A.id),
      looseEq x.id A.id = false := by
    intro x hx
    have hb := (List.mem_filter.mp hx).2
    cases hcase : looseEq x.id A.id with
    | false => rfl
    | true => rw [hcase] at hb; exact absurd hb (by decide)
  have hrecNone : extractFirst (fun x : DM.StudentRecord => looseEq x.id A.id)
      (dm.studentRecords.filter (fun r => !looseEq r.id A.id)) = none :=
    extractFirst_eq_none _ _ hfilterFalse
  have hkeepFalse : ∀ x ∈ dm.attendanceLogs.filter (fun l => !looseEq l.studentId A.id),
      looseEq x.studentId A.id = false := by
    intro x hx
    have hb := (List.mem_filter.mp hx).2
    cases hcase : looseEq x.studentId A.id with
    | false => rfl
    | true => rw [hcase] at hb; exact absurd hb (by decide)
  have hmineId : ∀ l ∈ dm.attendanceLogs.filter (fun l => looseEq l.studentId A.id),
      l.studentId = A.id := by
    intro l hl
    exact hlogid l (List.mem_filter.mp hl).1 (List.mem_filter.mp hl).2
  have hcross : ∀ x ∈ dm.attendanceLogs.filter (fun l => !looseEq l.studentId A.id),
      ∀ l ∈ dm.attendanceLogs.filter (fun l => looseEq l.studentId A.id),
      DM.restoreKeyMatch x l = false := by
    intro x hx l hl
    unfold DM.restoreKeyMatch
    rw [hmineId l hl, hkeepFalse x hx]
    rfl
  have hpair' : (dm.attendanceLogs.filter (fun l => looseEq l.studentId A.id)).Pairwise
      (fun a b => DM.restoreKeyMatch a b = false) := by
    apply List.Pairwise.imp ?_ hpair
    intro a b hab
    unfold DM.restoreKeyMatch
    rcases hab with hd | hsn
    · have hbe : (a.date == b.date) = false := beq_eq_false_iff_ne.mpr hd
      rw [hbe, Bool.and_false, Bool.false_and]
    · have hbe : (a.session == b.session) = false := beq_eq_false_iff_ne.mpr hsn
      rw [hbe, Bool.and_false]
  have hfold : (dm.attendanceLogs.filter (fun l => looseEq l.studentId A.id)).foldl
        DM.restoreLogStep (dm.attendanceLogs.filter (fun l => !looseEq l.studentId A.id))
      = dm.attendanceLogs.filter (fun l => !looseEq l.studentId A.id)
        ++ dm.attendanceLogs.filter (fun l => looseEq l.studentId A.id) :=
    foldl_restore_append _ _ hcross hpair'
  have hrestore : DM.restoreStudent (DM.deleteStudentTemporary dm A.id now1).1 A.id now2
      = (⟨(s1 ++ s2) ++ [A],
          dm.studentRecords.filter (fun r => !looseEq r.id A.id) ++ [R],
          dm.attendanceLogs.filter (fun l => !looseEq l.studentId A.id)
            ++ dm.attendanceLogs.filter (fun l => looseEq l.studentId A.id),
          dm.deletedStudents⟩,
        .ok A) := by
    rw [hdelete]
    unfold DM.restoreStudent DM.getStudentById
    simp only [hsplitD, htr, Bool.not_true, Bool.false_eq_true, if_false, hfindStu,
      hrecNone, hfold, List.append_nil]
  have hRecKeep : dm.studentRecords.filter (fun r => !looseEq r.id A.id) = r1 ++ r2 := by
    rw [hr]
    exact filter_not_mid r1 r2 R _ hr1 hr2 hR
  refine ⟨?_, ?_, ?_, ?_, ?_, ?_, ?_, ?_, ?_⟩
  · rw [hrestore]
  · rw [hrestore]
  · rw [hrestore]
    show ((s1 ++ s2) ++ [A]).Perm dm.students
    rw [hs, List.append_assoc]
    exact List.Perm.append_left s1 List.perm_append_comm
  · rw [hrestore]
    show dm.studentRecords.filter (fun r => !looseEq r.id A.id) ++ [R] = (r1 ++ r2) ++ [R]
    rw [hRecKeep]
  · rw [hrestore]
    show (dm.studentRecords.filter (fun r => !looseEq r.id A.id) ++ [R]).Perm
      dm.studentRecords
    rw [hRecKeep, hr, List.append_assoc]
    exact List.Perm.append_left r1 List.perm_append_comm
  · rw [hrestore]
  · rw [hrestore]
    show (dm.attendanceLogs.filter (fun l => !looseEq l.studentId A.id)
        ++ dm.attendanceLogs.filter (fun l => looseEq l.studentId A.id)).Perm
      dm.attendanceLogs
    exact List.Perm.trans List.perm_append_comm
      (List.filter_append_perm (fun l => looseEq l.studentId A.id) dm.attendanceLogs)
  · rw [hrestore]
  · rw [hrestore]
    unfold DM.restoreStudent
    rw [show extractFirst (fun e : DM.DeletedEntry => looseEq e.student.id A.id)
        dm.deletedStudents = none from extractFirst_eq_none _ _ hdel]

/-- Witness for C6: deleting "2024001" from a store with two students,
one record and three log rows and restoring it brings back the student,
the record and a permutation of the original log rows; a second restore
errors "not found". -/
theorem tombstone_round_trip_witness :
    wDm6.students = [] ++ wDmStudent :: [wDmStudentB] ∧
    jsTruthy wDmStudent.id = true ∧
    ((DM.restoreStudent (DM.deleteStudentTemporary wDm6 wDmStudent.id "d1").1
        wDmStudent.id "d2").2 = .ok wDmStudent ∧
      (DM.restoreStudent (DM.deleteStudentTemporary wDm6 wDmStudent.id "d1").1
        wDmStudent.id "d2").1.students = ([] ++ [wDmStudentB]) ++ [wDmStudent] ∧
      (DM.restoreStudent (DM.deleteStudentTemporary wDm6 wDmStudent.id "d1").1
        wDmStudent.id "d2").1.studentRecords = ([] ++ []) ++ [wDmRecord] ∧
      ((DM.restoreStudent (DM.deleteStudentTemporary wDm6 wDmStudent.id "d1").1
        wDmStudent.id "d2").1.attendanceLogs).Perm wDm6.attendanceLogs ∧
      DM.restoreStudent
          (DM.restoreStudent (DM.deleteStudentTemporary wDm6 wDmStudent.id "d1").1
            wDmStudent.id "d2").1 wDmStudent.id "d3"
        = ((DM.restoreStudent (DM.deleteStudentTemporary wDm6 wDmStudent.id "d1").1
              wDmStudent.id "d2").1,
           .error ("Deleted student with ID " ++ jsToString wDmStudent.id
             ++ " not found"))) := by
  refine ⟨rfl, rfl, ?_⟩
  have h := tombstone_round_trip wDm6 wDmStudent wDmRecord [] [wDmStudentB] [] []
    "d1" "d2" "d3" rfl
    (by intro b hb; cases hb) (by decide) rfl (by decide)
    (by intro x hx; cases hx) (by intro x hx; cases hx)
    (by intro e he; cases he) (by decide) (by decide) (by decide)
  exact ⟨h.1, h.2.1, h.2.2.2.1, h.2.2.2.2.2.2.1, h.2.2.2.2.2.2.2.2⟩

end StudentMgmt
